import Mathlib

/-!
ESP32 camera streaming: a shallow embedding of the two stream handlers.

Embedded sources:
* src/main/wifi_streaming.c  (the direct handler: capture, filter and send in one loop)
* src/main/websocket.c       (the queued handler: camera_capture_task feeding frame_queue,
                              stream_handler draining it)

Calls into the camera driver, the HTTP server and FreeRTOS are recorded as events, and their
results (the captured frame, the code returned by each chunk write, whether malloc succeeded)
are inputs of the embedded functions, so every theorem quantifies over all behaviours of the
environment.  size_t is the 32-bit unsigned type of the ESP32 target.
-/

namespace Esp32Camera

/-! ## Platform types and constants -/

/-- The type esp_err_t of the ESP-IDF header esp_err.h: a signed machine integer. The codes
below carry the values of the ESP-IDF headers; the handlers only compare a result with them,
and no general theorem depends on the values. -/
abbrev esp_err_t := Int

/-- The success code, esp_err.h. -/
def ESP_OK : esp_err_t := 0

/-- The generic failure code, esp_err.h. -/
def ESP_FAIL : esp_err_t := -1

/-- First HTTP server error code, esp_http_server.h. -/
def ESP_ERR_HTTPD_BASE : esp_err_t := 0xb000

/-- Invalid request pointer, esp_http_server.h. -/
def ESP_ERR_HTTPD_INVALID_REQ : esp_err_t := ESP_ERR_HTTPD_BASE + 3

/-- Error while sending a response packet, esp_http_server.h. -/
def ESP_ERR_HTTPD_RESP_SEND : esp_err_t := ESP_ERR_HTTPD_BASE + 6

/-- Number of values of size_t on the ESP32 (32-bit unsigned). -/
def SIZE_MOD : Nat := 2 ^ 32

/-- The C statement x++ on a size_t. -/
def size_inc (x : Nat) : Nat := (x + 1) % SIZE_MOD

/-- The bytes of a C string literal (without the terminating NUL). -/
def cstr (s : String) : List UInt8 := s.toList.map (fun c => UInt8.ofNat c.toNat)

/-- The macro STREAM_CONTENT_TYPE, wifi_streaming.c line 25 (same literal in websocket.c line 213). -/
def STREAM_CONTENT_TYPE : String :=
  "multipart/x-mixed-replace;boundary=123456789000000000000987654321"

/-- The macro STREAM_BOUNDARY, wifi_streaming.c line 26 (same literal in websocket.c line 214). -/
def STREAM_BOUNDARY : String := "\r\n--123456789000000000000987654321\r\n"

/-- The decimal digits of a number, as bytes. -/
def decimal (n : Nat) : List UInt8 :=
  (Nat.toDigits 10 n).map (fun c => UInt8.ofNat c.toNat)

/-- The conversion %u of an argument of type size_t: the decimal digits of the value
as a 32-bit unsigned integer. -/
def fmt_u (n : Nat) : List UInt8 :=
  decimal (n % SIZE_MOD)

/-- The format STREAM_PART, wifi_streaming.c line 27 (same literal in websocket.c line 215),
expanded with its one argument. -/
def STREAM_PART (len : Nat) : List UInt8 :=
  cstr "Content-Type: image/jpeg\r\nContent-Length: " ++ fmt_u len ++ cstr "\r\n\r\n"

/-- The call snprintf(part_buf, size, STREAM_PART, len): the bytes stored in part_buf before the
terminating NUL (at most size - 1 of them) and the returned length of the untruncated text. -/
def snprintf_part (size len : Nat) : List UInt8 × Nat :=
  ((STREAM_PART len).take (size - 1), (STREAM_PART len).length)

/-- The frame buffer camera_fb_t of the camera driver (esp_camera.h): buf holds the len bytes
of the image; the other fields are not read by the handlers. -/
structure camera_fb_t where
  buf : List UInt8
deriving DecidableEq, Repr

/-- The field len of camera_fb_t. -/
def camera_fb_t.len (fb : camera_fb_t) : Nat := fb.buf.length

/-- The struct frame_data_t of websocket.c lines 23-26: a heap copy of a frame. -/
structure frame_data_t where
  data : List UInt8
  len : Nat
deriving DecidableEq, Repr

/-- Calls into the environment, in program order. A delay records the millisecond count that
the source divides by portTICK_PERIOD_MS. -/
inductive Event where
  | fb_get (fb : Option camera_fb_t)
  | fb_return (fb : camera_fb_t)
  | send_chunk (data : List UInt8) (res : esp_err_t)
  | vTaskDelay (ms : Nat)
  | malloc (len : Nat) (ok : Bool)
  | free (fd : frame_data_t)
  | queue_send (fd : frame_data_t) (ok : Bool)
  | queue_receive (fd : Option frame_data_t)
deriving DecidableEq, Repr

/-- The test res == ESP_ERR_HTTPD_RESP_SEND || res == ESP_ERR_HTTPD_INVALID_REQ. -/
def is_disconnect (res : esp_err_t) : Bool :=
  res == ESP_ERR_HTTPD_RESP_SEND || res == ESP_ERR_HTTPD_INVALID_REQ

/-! ## The direct handler, wifi_streaming.c stream_handler -/

/-- The locals of stream_handler that live across loop iterations (lines 137-142). -/
structure StreamSession where
  frame_count : Nat
  error_count : Nat
  dropped_frames : Nat
  res : esp_err_t
deriving DecidableEq, Repr

/-- The constant max_errors, line 142. -/
def max_errors : Nat := 5

/-- The locals at loop entry, lines 137-141. -/
def StreamSession.init : StreamSession :=
  { frame_count := 0, error_count := 0, dropped_frames := 0, res := ESP_OK }

/-- The local skip_frames, lines 168-171. -/
def skip_frames (s : StreamSession) : Nat :=
  if s.error_count > 1 then 12 else 2

/-- The local max_frame_size, line 182. -/
def max_frame_size (s : StreamSession) : Nat :=
  if s.error_count > 2 then 15 * 1024 else 25 * 1024

/-- The local frame_delay, line 278. -/
def frame_delay (s : StreamSession) : Nat :=
  if s.error_count > 0 then 200 else 50

/-- The constant chunk_size of the direct handler, line 237. -/
def chunk_size : Nat := 2024

/-- The state of the payload loop when it is left. -/
structure PayloadResult where
  sent : Nat
  send_failed : Bool
  res : esp_err_t
  events : List Event
deriving DecidableEq, Repr

/-- The payload loop, lines 241-258. The argument send gives the code returned by the k-th
chunk write of the current outer iteration; the loop is entered with send_failed false, and
every assignment of true to it is followed by break. -/
def payload_loop (send : Nat → esp_err_t) (fb : camera_fb_t) (sent k : Nat) (res : esp_err_t) :
    PayloadResult :=
  if sent < fb.len then
    let to_send := if fb.len - sent > chunk_size then chunk_size else fb.len - sent
    let r := send k
    let ev := Event.send_chunk ((fb.buf.drop sent).take to_send) r
    if r ≠ ESP_OK then
      if is_disconnect r then
        { sent := sent, send_failed := true, res := r, events := [ev] }
      else
        { sent := sent, send_failed := true, res := r, events := [ev] }
    else
      let rest := payload_loop send fb (sent + to_send) (k + 1) r
      { rest with events := ev :: Event.vTaskDelay 5 :: rest.events }
  else
    { sent := sent, send_failed := false, res := res, events := [] }
termination_by fb.len - sent
decreasing_by
  simp only [chunk_size]
  split <;> omega

/-- The path an iteration of the outer loop takes. -/
inductive Path where
  | no_frame
  | skipped
  | oversize
  | boundary_failed
  | header_failed
  | payload_failed
  | sent
deriving DecidableEq, Repr

/-- The outcome of one iteration of the outer loop: the locals afterwards, whether the loop goes
on (false after break), the calls made, and the path taken. -/
structure Step where
  st : StreamSession
  running : Bool
  events : List Event
  path : Path
deriving DecidableEq, Repr

/-- The block that follows a failed write once a disconnect is excluded (lines 202-210, 225-233,
263-271): count the error, then either the long pause with a reset or the short pause. -/
def count_error (s : StreamSession) (backoff_ms : Nat) : StreamSession × List Event :=
  let s1 := { s with error_count := size_inc s.error_count }
  if s1.error_count ≥ max_errors then
    ({ s1 with error_count := 0 }, [Event.vTaskDelay 5000])
  else
    (s1, [Event.vTaskDelay backoff_ms])

/-- One iteration of the loop while (true), lines 156-286. The argument fb is the result of
esp_camera_fb_get, and send k the code returned by the k-th call of httpd_resp_send_chunk
made in this iteration. -/
def stream_iteration (s : StreamSession) (fb : Option camera_fb_t) (send : Nat → esp_err_t) :
    Step :=
  match fb with
  | none =>
    { st := s, running := true, events := [Event.fb_get none, Event.vTaskDelay 50],
      path := Path.no_frame }
  | some fb =>
    let s1 := { s with frame_count := size_inc s.frame_count }
    if s1.frame_count % skip_frames s1 ≠ 0 then
      { st := { s1 with dropped_frames := size_inc s1.dropped_frames }, running := true,
        events := [Event.fb_get (some fb), Event.fb_return fb], path := Path.skipped }
    else if fb.len > max_frame_size s1 then
      { st := { s1 with dropped_frames := size_inc s1.dropped_frames }, running := true,
        events := [Event.fb_get (some fb), Event.fb_return fb], path := Path.oversize }
    else
      let r0 := send 0
      let e0 := [Event.fb_get (some fb), Event.send_chunk (cstr STREAM_BOUNDARY) r0]
      let s2 := { s1 with res := r0 }
      if r0 ≠ ESP_OK then
        if is_disconnect r0 then
          { st := s2, running := false, events := e0 ++ [Event.fb_return fb],
            path := Path.boundary_failed }
        else
          let c := count_error s2 500
          { st := c.1, running := true, events := e0 ++ [Event.fb_return fb] ++ c.2,
            path := Path.boundary_failed }
      else
        let part := snprintf_part 128 fb.len
        let r1 := send 1
        let e1 := e0 ++ [Event.send_chunk (part.1.take part.2) r1]
        let s3 := { s2 with res := r1 }
        if r1 ≠ ESP_OK then
          if is_disconnect r1 then
            { st := s3, running := false, events := e1 ++ [Event.fb_return fb],
              path := Path.header_failed }
          else
            let c := count_error s3 500
            { st := c.1, running := true, events := e1 ++ [Event.fb_return fb] ++ c.2,
              path := Path.header_failed }
        else
          let p := payload_loop send fb 0 2 r1
          let e2 := e1 ++ p.events ++ [Event.fb_return fb]
          let s4 := { s3 with res := p.res }
          if p.send_failed then
            let c := count_error s4 1000
            { st := c.1, running := true, events := e2 ++ c.2, path := Path.payload_failed }
          else
            let s5 := { s4 with error_count := 0 }
            { st := s5, running := true, events := e2 ++ [Event.vTaskDelay (frame_delay s5)],
              path := Path.sent }

/-- What the environment supplies to one iteration of the direct handler. -/
structure IterInput where
  fb : Option camera_fb_t
  send : Nat → esp_err_t

/-- The loop while (true) of the direct handler over a finite run of the environment: one
Step per iteration entered, none after a break. -/
def stream_run (s : StreamSession) : List IterInput → List Step
  | [] => []
  | i :: rest =>
    let r := stream_iteration s i.fb i.send
    r :: (if r.running then stream_run r.st rest else [])

/-- All calls made during a run, in program order. -/
def trace (steps : List Step) : List Event :=
  (steps.map (fun r => r.events)).flatten

/-- The locals after a run: those of its last step, or the initial ones when no iteration
was entered. -/
def final_session (s : StreamSession) (steps : List Step) : StreamSession :=
  match steps.getLast? with
  | some r => r.st
  | none => s

/-- The data of the chunk writes among some events, in order. -/
def chunks_written : List Event → List (List UInt8)
  | [] => []
  | Event.send_chunk d _ :: es => d :: chunks_written es
  | _ :: es => chunks_written es

/-- Whether a frame reached the encoder on this path: some chunk write was attempted for it. -/
def Path.forwarded : Path → Bool
  | Path.boundary_failed => true
  | Path.header_failed => true
  | Path.payload_failed => true
  | Path.sent => true
  | _ => false

/-- Whether the path ends in a failed chunk write. -/
def Path.write_failed : Path → Bool
  | Path.boundary_failed => true
  | Path.header_failed => true
  | Path.payload_failed => true
  | _ => false

/-! ## The queued variant, websocket.c -/

/-- Modelled from the spec: the FreeRTOS queue behind frame_queue is not under src/. A bounded
FIFO of fixed capacity, as in section 4.2 of the specification (tryPush rejects when full, pop
returns the oldest entry or times out). -/
structure Queue where
  capacity : Nat
  items : List frame_data_t
deriving DecidableEq, Repr

/-- Modelled from the spec: xQueueCreate of FreeRTOS, an empty queue of the given capacity. -/
def xQueueCreate (uxQueueLength : Nat) : Queue :=
  { capacity := uxQueueLength, items := [] }

/-- Modelled from the spec: xQueueSend of FreeRTOS at the end of its bounded wait. The item is
appended when there is room (true, pdPASS); a queue still full is left as it is (false). -/
def xQueueSend (q : Queue) (item : frame_data_t) : Queue × Bool :=
  if q.items.length < q.capacity then ({ q with items := q.items ++ [item] }, true)
  else (q, false)

/-- Modelled from the spec: xQueueReceive of FreeRTOS at the end of its bounded wait. The
oldest item is removed and returned, or none on timeout. -/
def xQueueReceive (q : Queue) : Queue × Option frame_data_t :=
  match q.items with
  | [] => (q, none)
  | x :: xs => ({ q with items := xs }, some x)

/-- The heap copy that camera_capture_task makes of a frame, websocket.c lines 98-102:
malloc(fb->len), memcpy of fb->len bytes, and the length. -/
def heap_copy (fb : camera_fb_t) : frame_data_t :=
  { data := fb.buf.take fb.len, len := fb.len }

/-- The path an iteration of camera_capture_task takes. -/
inductive CapturePath where
  | idle
  | no_frame
  | skipped
  | oversize
  | alloc_failed
  | queue_full
  | queued
deriving DecidableEq, Repr

/-- The outcome of one iteration of camera_capture_task. -/
structure CaptureStep where
  frame_count : Nat
  queue : Queue
  events : List Event
  path : CapturePath
deriving DecidableEq, Repr

/-- One iteration of the loop of camera_capture_task, websocket.c lines 67-113. The arguments
fb and malloc_ok are the results of esp_camera_fb_get and of malloc. -/
def capture_iteration (ws_streaming : Bool) (frame_count : Nat) (q : Queue)
    (fb : Option camera_fb_t) (malloc_ok : Bool) : CaptureStep :=
  if !ws_streaming then
    { frame_count := frame_count, queue := q, events := [Event.vTaskDelay 500],
      path := CapturePath.idle }
  else
    match fb with
    | none =>
      { frame_count := frame_count, queue := q,
        events := [Event.fb_get none, Event.vTaskDelay 100], path := CapturePath.no_frame }
    | some fb =>
      let fc := size_inc frame_count
      if fc % 2 ≠ 0 then
        { frame_count := fc, queue := q,
          events := [Event.fb_get (some fb), Event.fb_return fb, Event.vTaskDelay 50],
          path := CapturePath.skipped }
      else if fb.len > 40 * 1024 then
        { frame_count := fc, queue := q,
          events := [Event.fb_get (some fb), Event.fb_return fb, Event.vTaskDelay 50],
          path := CapturePath.oversize }
      else if malloc_ok then
        let frame_data : frame_data_t := heap_copy fb
        let push := xQueueSend q frame_data
        if push.2 ≠ true then
          { frame_count := fc, queue := push.1,
            events := [Event.fb_get (some fb), Event.malloc fb.len true,
                       Event.queue_send frame_data false, Event.free frame_data,
                       Event.fb_return fb, Event.vTaskDelay 100],
            path := CapturePath.queue_full }
        else
          { frame_count := fc, queue := push.1,
            events := [Event.fb_get (some fb), Event.malloc fb.len true,
                       Event.queue_send frame_data true,
                       Event.fb_return fb, Event.vTaskDelay 100],
            path := CapturePath.queued }
      else
        { frame_count := fc, queue := q,
          events := [Event.fb_get (some fb), Event.malloc fb.len false,
                     Event.fb_return fb, Event.vTaskDelay 100],
          path := CapturePath.alloc_failed }

/-- The constant chunk_size of the queued handler, websocket.c line 250. -/
def ws_chunk_size : Nat := 4096

/-- The state of the payload loop of the queued handler when it is left. -/
structure WsPayloadResult where
  sent : Nat
  res : esp_err_t
  events : List Event
deriving DecidableEq, Repr

/-- The payload loop of the queued handler, websocket.c lines 253-260. -/
def ws_payload_loop (send : Nat → esp_err_t) (fd : frame_data_t) (sent k : Nat)
    (res : esp_err_t) : WsPayloadResult :=
  if sent < fd.len then
    let to_send := if fd.len - sent > ws_chunk_size then ws_chunk_size else fd.len - sent
    let r := send k
    let ev := Event.send_chunk ((fd.data.drop sent).take to_send) r
    if r ≠ ESP_OK then
      { sent := sent, res := r, events := [ev] }
    else
      let rest := ws_payload_loop send fd (sent + to_send) (k + 1) r
      { rest with events := ev :: rest.events }
  else
    { sent := sent, res := res, events := [] }
termination_by fd.len - sent
decreasing_by
  simp only [ws_chunk_size]
  split <;> omega

/-- The path an iteration of the queued handler takes. -/
inductive WsPath where
  | keep_alive
  | keep_alive_failed
  | boundary_failed
  | header_failed
  | payload_failed
  | sent
deriving DecidableEq, Repr

/-- The outcome of one iteration of the loop of the queued handler. -/
structure WsStep where
  queue : Queue
  frames_sent : Nat
  res : esp_err_t
  running : Bool
  events : List Event
  path : WsPath
deriving DecidableEq, Repr

/-- One iteration of the loop while (true) of the queued stream_handler, websocket.c
lines 230-280; send k is the code returned by the k-th chunk write of this iteration. -/
def ws_stream_iteration (q : Queue) (frames_sent : Nat) (send : Nat → esp_err_t) : WsStep :=
  let recv := xQueueReceive q
  match recv.2 with
  | some frame_data =>
    let r0 := send 0
    let e0 := [Event.queue_receive (some frame_data),
               Event.send_chunk (cstr STREAM_BOUNDARY) r0]
    if r0 ≠ ESP_OK then
      { queue := recv.1, frames_sent := frames_sent, res := r0, running := false,
        events := e0 ++ [Event.free frame_data], path := WsPath.boundary_failed }
    else
      let part := snprintf_part 128 frame_data.len
      let r1 := send 1
      let e1 := e0 ++ [Event.send_chunk (part.1.take part.2) r1]
      if r1 ≠ ESP_OK then
        { queue := recv.1, frames_sent := frames_sent, res := r1, running := false,
          events := e1 ++ [Event.free frame_data], path := WsPath.header_failed }
      else
        let p := ws_payload_loop send frame_data 0 2 r1
        let e2 := e1 ++ p.events ++ [Event.free frame_data]
        if p.res ≠ ESP_OK then
          { queue := recv.1, frames_sent := frames_sent, res := p.res, running := false,
            events := e2, path := WsPath.payload_failed }
        else
          { queue := recv.1, frames_sent := size_inc frames_sent, res := p.res,
            running := true, events := e2, path := WsPath.sent }
  | none =>
    let r := send 0
    let e := [Event.queue_receive none, Event.send_chunk (cstr "\r\n") r]
    if r ≠ ESP_OK then
      { queue := recv.1, frames_sent := frames_sent, res := r, running := false,
        events := e, path := WsPath.keep_alive_failed }
    else
      { queue := recv.1, frames_sent := frames_sent, res := r, running := true,
        events := e, path := WsPath.keep_alive }

/-- The shared state of the queued variant: the globals frame_queue and ws_streaming
(websocket.c lines 18-19), the local frame_count of camera_capture_task and the local
frames_sent of the stream_handler being served. -/
structure WsSystem where
  frame_queue : Queue
  ws_streaming : Bool
  frame_count : Nat
  frames_sent : Nat
deriving DecidableEq, Repr

/-- What runs next in the queued variant: one iteration of camera_capture_task, the entry of
stream_handler up to its loop, or one iteration of that loop. -/
inductive WsAction where
  | capture (fb : Option camera_fb_t) (malloc_ok : Bool)
  | request (set_type : esp_err_t)
  | serve (send : Nat → esp_err_t)

/-- The state after start_websocket_server, websocket.c lines 288-345: the queue of five
slots is created and the capture task started; no stream is being served. -/
def start_websocket_server : WsSystem :=
  { frame_queue := xQueueCreate 5, ws_streaming := false, frame_count := 0, frames_sent := 0 }

/-- One scheduling step of the queued variant. The entry of stream_handler (lines 205-228)
returns early when httpd_resp_set_type fails and otherwise sets ws_streaming; the loop of
stream_handler runs while a stream is served, and ws_streaming is cleared when it is left
(line 282). -/
def ws_step (w : WsSystem) : WsAction → WsSystem × List Event
  | WsAction.capture fb malloc_ok =>
    let r := capture_iteration w.ws_streaming w.frame_count w.frame_queue fb malloc_ok
    ({ w with frame_count := r.frame_count, frame_queue := r.queue }, r.events)
  | WsAction.request set_type =>
    if set_type ≠ ESP_OK then (w, [])
    else if w.ws_streaming then (w, [])
    else ({ w with ws_streaming := true, frames_sent := 0 }, [])
  | WsAction.serve send =>
    if w.ws_streaming then
      let r := ws_stream_iteration w.frame_queue w.frames_sent send
      ({ w with frame_queue := r.queue, frames_sent := r.frames_sent,
                ws_streaming := r.running }, r.events)
    else (w, [])

/-- The state after a sequence of scheduling steps. -/
def ws_run (w : WsSystem) : List WsAction → WsSystem
  | [] => w
  | a :: rest => ws_run (ws_step w a).1 rest

/-- The drain loop of stop_websocket_server, websocket.c lines 365-370: receive without
waiting and free, until the queue is empty. -/
def drain_queue (q : Queue) : Queue × List Event :=
  match h : (xQueueReceive q).2 with
  | some frame_data =>
    let r := drain_queue (xQueueReceive q).1
    (r.1, Event.queue_receive (some frame_data) :: Event.free frame_data :: r.2)
  | none => ((xQueueReceive q).1, [Event.queue_receive none])
termination_by q.items.length
decreasing_by
  cases hq : q.items <;> simp_all [xQueueReceive]

/-! ## Observers of event lists and the inputs at which the theorems are instantiated -/

/-- Whether an event is a call of esp_camera_fb_return. -/
def is_fb_return : Event → Bool
  | Event.fb_return _ => true
  | _ => false

/-- Whether an event is a call of esp_camera_fb_get that yields a frame. -/
def is_fb_acquire : Event → Bool
  | Event.fb_get (some _) => true
  | _ => false

/-- Whether an event is a call of free. -/
def is_free : Event → Bool
  | Event.free _ => true
  | _ => false

/-- Whether an event is a successful malloc. -/
def is_alloc : Event → Bool
  | Event.malloc _ true => true
  | _ => false

/-- The number of steps of a run in which a frame reached the encoder. -/
def forwarded_count (steps : List Step) : Nat :=
  steps.countP (fun r => r.path.forwarded)

/-- A session that has captured one frame so far, used to instantiate the theorems. -/
def session_after_one : StreamSession :=
  { frame_count := 1, error_count := 0, dropped_frames := 1, res := ESP_OK }

/-- A three-byte frame, used to instantiate the theorems. -/
def small_fb : camera_fb_t := { buf := [255, 216, 255] }

/-- A transport on which every write succeeds. -/
def send_ok : Nat → esp_err_t := fun _ => ESP_OK

/-- A transport that accepts the boundary and the part header and then reports
ESP_ERR_HTTPD_RESP_SEND on the first payload chunk. -/
def send_payload_disconnect : Nat → esp_err_t :=
  fun k => if k = 2 then ESP_ERR_HTTPD_RESP_SEND else ESP_OK

/-- A transport on which every write fails with the generic code ESP_FAIL. -/
def send_fail : Nat → esp_err_t := fun _ => ESP_FAIL

/-- An iteration input: a three-byte frame on a transport where every write fails with
ESP_FAIL. -/
def failing_input : IterInput := { fb := some small_fb, send := send_fail }

/-- A full frame queue: five heap copies of the three-byte frame. -/
def full_queue : Queue :=
  { capacity := 5, items := List.replicate 5 (heap_copy small_fb) }

/-- A schedule that opens a stream and then runs fourteen capture iterations with no consumer
iteration in between: seven frames pass the skip filter and are pushed. -/
def burst_schedule : List WsAction :=
  WsAction.request ESP_OK :: List.replicate 14 (WsAction.capture (some small_fb) true)

/-- A frame of n bytes. -/
def frame_of_size (n : Nat) : camera_fb_t := { buf := List.replicate n 0 }

/-- The capture sequence of the scenario, frames of 10 KB, 10 KB, 30 KB and 10 KB, on a
transport where every write succeeds. -/
def scenario_inputs : List IterInput :=
  [{ fb := some (frame_of_size (10 * 1024)), send := send_ok },
   { fb := some (frame_of_size (10 * 1024)), send := send_ok },
   { fb := some (frame_of_size (30 * 1024)), send := send_ok },
   { fb := some (frame_of_size (10 * 1024)), send := send_ok }]

/-- A session with the given error count and no frame captured yet. -/
def session_with_errors (e : Nat) : StreamSession :=
  { frame_count := 0, error_count := e, dropped_frames := 0, res := ESP_OK }

/-- A session with three errors counted whose next capture passes the skip filter. -/
def session_three_errors : StreamSession :=
  { frame_count := 11, error_count := 3, dropped_frames := 10, res := ESP_FAIL }

/-- The boundary token that the content type declares and the boundary line repeats. -/
def BOUNDARY_TOKEN : String := "123456789000000000000987654321"

/-- What a handler has set on the response when it enters its loop. -/
structure ResponseHead where
  content_type : String
  headers : List (String × String)
deriving DecidableEq, Repr

/-- The entry of the direct stream_handler, wifi_streaming.c lines 146-154: the content type
is set (the handler returns when that fails), then five response headers. -/
def stream_handler_entry (set_type : esp_err_t) : Option ResponseHead :=
  if set_type ≠ ESP_OK then none
  else some
    { content_type := STREAM_CONTENT_TYPE,
      headers := [("Access-Control-Allow-Origin", "*"),
                  ("Cache-Control", "no-cache, no-store, must-revalidate"),
                  ("Pragma", "no-cache"),
                  ("Connection", "keep-alive"),
                  ("Keep-Alive", "timeout=5, max=100")] }

/-- The entry of the queued stream_handler, websocket.c lines 219-225. -/
def ws_stream_handler_entry (set_type : esp_err_t) : Option ResponseHead :=
  if set_type ≠ ESP_OK then none
  else some
    { content_type := STREAM_CONTENT_TYPE,
      headers := [("Access-Control-Allow-Origin", "*"),
                  ("Cache-Control", "no-cache, no-store, must-revalidate"),
                  ("Pragma", "no-cache")] }

/-- The largest value of size_t, the longest frame length the header can carry. -/
def SIZE_MAX : Nat := 4294967295

/-! ## Lemmas on the part header -/

theorem fmt_u_length (n : Nat) : (fmt_u n).length ≤ 10 := by
  have h : n % SIZE_MOD < 10 ^ 10 :=
    Nat.lt_of_lt_of_le (Nat.mod_lt n (by decide)) (by decide)
  simpa [fmt_u, decimal, Nat.toDigits] using
    Nat.toDigitsCore_length 10 (by decide) (n % SIZE_MOD + 1) (n % SIZE_MOD) 10 h (by decide)

theorem STREAM_PART_length (n : Nat) : (STREAM_PART n).length = 46 + (fmt_u n).length := by
  have h1 : (cstr "Content-Type: image/jpeg\r\nContent-Length: ").length = 42 := by decide
  have h2 : (cstr "\r\n\r\n").length = 4 := by decide
  simp only [STREAM_PART, List.length_append, h1, h2]
  omega

theorem snprintf_part_exact (n : Nat) :
    (snprintf_part 128 n).1.take (snprintf_part 128 n).2 = STREAM_PART n := by
  have h := STREAM_PART_length n
  have h10 := fmt_u_length n
  simp only [snprintf_part]
  rw [List.take_of_length_le (l := STREAM_PART n) (by omega)]
  exact List.take_of_length_le (by omega)

/-! ## Lemmas on the payload loops -/

theorem chunks_written_append (a b : List Event) :
    chunks_written (a ++ b) = chunks_written a ++ chunks_written b := by
  induction a with
  | nil => rfl
  | cons e es ih => cases e <;> simp [chunks_written, ih]

theorem take_append_drop_add (l : List UInt8) (sent m : Nat) :
    (l.drop sent).take m ++ l.drop (sent + m) = l.drop sent := by
  rw [← List.drop_drop]
  exact List.take_append_drop m (l.drop sent)

theorem payload_loop_ok (send : Nat → esp_err_t) (fb : camera_fb_t) :
    ∀ (d sent k : Nat) (res : esp_err_t), fb.len - sent = d → sent ≤ fb.len →
      (∀ j, k ≤ j → send j = ESP_OK) → res = ESP_OK →
      (payload_loop send fb sent k res).send_failed = false ∧
      (payload_loop send fb sent k res).sent = fb.len ∧
      (payload_loop send fb sent k res).res = ESP_OK ∧
      (chunks_written (payload_loop send fb sent k res).events).flatten = fb.buf.drop sent := by
  intro d
  induction d using Nat.strong_induction_on with
  | _ d ih =>
    intro sent k res hd hle hsend hres
    rw [payload_loop]
    by_cases hlt : sent < fb.len
    · have hk : send k = ESP_OK := hsend k (Nat.le_refl k)
      simp only [hlt, if_true, hk, ne_eq, not_true_eq_false, if_false]
      have hpos : 0 < (if fb.len - sent > chunk_size then chunk_size else fb.len - sent) := by
        simp only [chunk_size]
        split <;> omega
      have hle2 : sent + (if fb.len - sent > chunk_size then chunk_size else fb.len - sent)
          ≤ fb.len := by
        split <;> omega
      have := ih (fb.len - (sent + (if fb.len - sent > chunk_size then chunk_size
        else fb.len - sent))) (by omega) _ (k + 1) ESP_OK rfl hle2
        (fun j hj => hsend j (by omega)) rfl
      obtain ⟨h1, h2, h3, h4⟩ := this
      refine ⟨h1, h2, h3, ?_⟩
      simp only [chunks_written, List.flatten_cons, h4]
      exact take_append_drop_add fb.buf sent _
    · have hEq : sent = fb.len := by omega
      simp only [hlt, if_false]
      refine ⟨trivial, hEq, hres, ?_⟩
      simp [chunks_written, hEq, camera_fb_t.len]

theorem ws_payload_loop_ok (send : Nat → esp_err_t) (fd : frame_data_t)
    (hfd : fd.len = fd.data.length) :
    ∀ (d sent k : Nat) (res : esp_err_t), fd.len - sent = d → sent ≤ fd.len →
      (∀ j, k ≤ j → send j = ESP_OK) → res = ESP_OK →
      (ws_payload_loop send fd sent k res).sent = fd.len ∧
      (ws_payload_loop send fd sent k res).res = ESP_OK ∧
      (chunks_written (ws_payload_loop send fd sent k res).events).flatten
        = fd.data.drop sent := by
  intro d
  induction d using Nat.strong_induction_on with
  | _ d ih =>
    intro sent k res hd hle hsend hres
    rw [ws_payload_loop]
    by_cases hlt : sent < fd.len
    · have hk : send k = ESP_OK := hsend k (Nat.le_refl k)
      simp only [hlt, if_true, hk, ne_eq, not_true_eq_false, if_false]
      have hpos : 0 < (if fd.len - sent > ws_chunk_size then ws_chunk_size
          else fd.len - sent) := by
        simp only [ws_chunk_size]
        split <;> omega
      have hle2 : sent + (if fd.len - sent > ws_chunk_size then ws_chunk_size
          else fd.len - sent) ≤ fd.len := by
        split <;> omega
      have := ih (fd.len - (sent + (if fd.len - sent > ws_chunk_size then ws_chunk_size
        else fd.len - sent))) (by omega) _ (k + 1) ESP_OK rfl hle2
        (fun j hj => hsend j (by omega)) rfl
      obtain ⟨h2, h3, h4⟩ := this
      refine ⟨h2, h3, ?_⟩
      simp only [chunks_written, List.flatten_cons, h4]
      exact take_append_drop_add fd.data sent _
    · have hEq : sent = fd.len := by omega
      simp only [hlt, if_false]
      refine ⟨hEq, hres, ?_⟩
      simp [chunks_written, hEq, hfd]

/-! ## The paths of one iteration of the direct handler -/

theorem skip_frames_frame_count (s : StreamSession) (n : Nat) :
    skip_frames { s with frame_count := n } = skip_frames s := rfl

theorem max_frame_size_frame_count (s : StreamSession) (n : Nat) :
    max_frame_size { s with frame_count := n } = max_frame_size s := rfl

/-- The iteration on the success path: the frame passes both filters and every write of the
iteration returns ESP_OK. -/
theorem stream_iteration_sent (s : StreamSession) (fb : camera_fb_t) (send : Nat → esp_err_t)
    (hskip : size_inc s.frame_count % skip_frames s = 0)
    (hsize : fb.len ≤ max_frame_size s)
    (hsend : ∀ k, send k = ESP_OK) :
    stream_iteration s (some fb) send =
      { st := { frame_count := size_inc s.frame_count, error_count := 0,
                dropped_frames := s.dropped_frames, res := ESP_OK },
        running := true,
        events := [Event.fb_get (some fb), Event.send_chunk (cstr STREAM_BOUNDARY) ESP_OK,
                   Event.send_chunk (STREAM_PART fb.len) ESP_OK]
                  ++ (payload_loop send fb 0 2 ESP_OK).events
                  ++ [Event.fb_return fb, Event.vTaskDelay 50],
        path := Path.sent } := by
  obtain ⟨h1, _, h3, _⟩ := payload_loop_ok send fb (fb.len - 0) 0 2 ESP_OK rfl
    (Nat.zero_le _) (fun j _ => hsend j) rfl
  have hsz : ¬ fb.len > max_frame_size s := by omega
  simp [stream_iteration, skip_frames_frame_count, max_frame_size_frame_count, hskip, hsz,
    hsend, snprintf_part_exact, h1, h3, frame_delay]

/-! ## The paths of one iteration of the queued handler -/

/-- The iteration of the queued handler on the success path: a frame is dequeued and every
write of the iteration returns ESP_OK. -/
theorem ws_stream_iteration_sent (q : Queue) (fd : frame_data_t) (rest : List frame_data_t)
    (frames_sent : Nat) (send : Nat → esp_err_t)
    (hq : q.items = fd :: rest) (hfd : fd.len = fd.data.length)
    (hsend : ∀ k, send k = ESP_OK) :
    ws_stream_iteration q frames_sent send =
      { queue := { q with items := rest }, frames_sent := size_inc frames_sent,
        res := ESP_OK, running := true,
        events := [Event.queue_receive (some fd),
                   Event.send_chunk (cstr STREAM_BOUNDARY) ESP_OK,
                   Event.send_chunk (STREAM_PART fd.len) ESP_OK]
                  ++ (ws_payload_loop send fd 0 2 ESP_OK).events
                  ++ [Event.free fd],
        path := WsPath.sent } := by
  obtain ⟨_, h3, _⟩ := ws_payload_loop_ok send fd hfd (fd.len - 0) 0 2 ESP_OK rfl
    (Nat.zero_le _) (fun j _ => hsend j) rfl
  simp [ws_stream_iteration, xQueueReceive, hq, hsend, snprintf_part_exact, h3]

theorem fmt_u_of_lt (n : Nat) (h : n < SIZE_MOD) : fmt_u n = decimal n := by
  simp [fmt_u, Nat.mod_eq_of_lt h]

theorem max_frame_size_le (s : StreamSession) : max_frame_size s ≤ 25 * 1024 := by
  simp only [max_frame_size]
  split <;> omega

/-! ## Counting calls in the events of an iteration -/

theorem payload_loop_countP (p : Event → Bool) (send : Nat → esp_err_t) (fb : camera_fb_t)
    (hp1 : ∀ d r, p (Event.send_chunk d r) = false)
    (hp2 : p (Event.vTaskDelay 5) = false) :
    ∀ (d sent k : Nat) (res : esp_err_t), fb.len - sent = d →
      (payload_loop send fb sent k res).events.countP p = 0 := by
  intro d
  induction d using Nat.strong_induction_on with
  | _ d ih =>
    intro sent k res hd
    rw [payload_loop]
    by_cases hlt : sent < fb.len
    · simp only [hlt, if_true]
      by_cases hk : send k = ESP_OK
      · simp only [hk, ne_eq, not_true_eq_false, if_false]
        have hpos : 0 < (if fb.len - sent > chunk_size then chunk_size
            else fb.len - sent) := by
          simp only [chunk_size]
          split <;> omega
        have := ih (fb.len - (sent + (if fb.len - sent > chunk_size then chunk_size
          else fb.len - sent))) (by omega) (sent + (if fb.len - sent > chunk_size
          then chunk_size else fb.len - sent)) (k + 1) ESP_OK rfl
        simp [List.countP_cons, hp1, hp2, this]
      · simp [hk, List.countP_cons, hp1]
    · simp [hlt]

theorem ws_payload_loop_countP (p : Event → Bool) (send : Nat → esp_err_t)
    (fd : frame_data_t) (hp1 : ∀ d r, p (Event.send_chunk d r) = false) :
    ∀ (d sent k : Nat) (res : esp_err_t), fd.len - sent = d →
      (ws_payload_loop send fd sent k res).events.countP p = 0 := by
  intro d
  induction d using Nat.strong_induction_on with
  | _ d ih =>
    intro sent k res hd
    rw [ws_payload_loop]
    by_cases hlt : sent < fd.len
    · simp only [hlt, if_true]
      by_cases hk : send k = ESP_OK
      · simp only [hk, ne_eq, not_true_eq_false, if_false]
        have hpos : 0 < (if fd.len - sent > ws_chunk_size then ws_chunk_size
            else fd.len - sent) := by
          simp only [ws_chunk_size]
          split <;> omega
        have := ih (fd.len - (sent + (if fd.len - sent > ws_chunk_size then ws_chunk_size
          else fd.len - sent))) (by omega) (sent + (if fd.len - sent > ws_chunk_size
          then ws_chunk_size else fd.len - sent)) (k + 1) ESP_OK rfl
        simp [List.countP_cons, hp1, this]
      · simp [hk, List.countP_cons, hp1]
    · simp [hlt]

/-- Counting over the events of one iteration of the direct handler, for a predicate that
holds of no chunk write and of no delay: only the acquisition and the release can count. -/
theorem stream_iteration_countP (p : Event → Bool) (s : StreamSession) (fb : camera_fb_t)
    (send : Nat → esp_err_t)
    (hp1 : ∀ d r, p (Event.send_chunk d r) = false)
    (hp2 : ∀ ms, p (Event.vTaskDelay ms) = false) :
    (stream_iteration s (some fb) send).events.countP p
      = (if p (Event.fb_get (some fb)) then 1 else 0)
        + (if p (Event.fb_return fb) then 1 else 0) := by
  have hpl := payload_loop_countP p send fb hp1 (hp2 5) (fb.len - 0) 0 2 (send 1) rfl
  simp only [stream_iteration, count_error]
  split_ifs <;> simp_all [List.countP_cons, List.countP_append]

/-! ## Failed writes in the events of an iteration -/

theorem payload_loop_failed_send (send : Nat → esp_err_t) (fb : camera_fb_t) :
    ∀ (d sent k : Nat) (res : esp_err_t), fb.len - sent = d →
      ∀ (dat : List UInt8) (c : esp_err_t),
        Event.send_chunk dat c ∈ (payload_loop send fb sent k res).events → c ≠ ESP_OK →
        (payload_loop send fb sent k res).send_failed = true ∧
        (payload_loop send fb sent k res).res = c := by
  intro d
  induction d using Nat.strong_induction_on with
  | _ d ih =>
    intro sent k res hd dat c
    rw [payload_loop]
    by_cases hlt : sent < fb.len
    · simp only [hlt, if_true]
      by_cases hk : send k = ESP_OK
      · simp only [hk, ne_eq, not_true_eq_false, if_false]
        have hpos : 0 < (if fb.len - sent > chunk_size then chunk_size
            else fb.len - sent) := by
          simp only [chunk_size]
          split <;> omega
        have := ih (fb.len - (sent + (if fb.len - sent > chunk_size then chunk_size
          else fb.len - sent))) (by omega) (sent + (if fb.len - sent > chunk_size
          then chunk_size else fb.len - sent)) (k + 1) ESP_OK rfl dat c
        intro hmem hc
        simp only [List.mem_cons, Event.send_chunk.injEq, reduceCtorEq, false_or] at hmem
        rcases hmem with ⟨_, h⟩ | h
        · exact absurd h hc
        · exact this h hc
      · intro hmem _
        simp only [hk, ne_eq, not_false_eq_true, if_true, ite_self, List.mem_singleton,
          Event.send_chunk.injEq] at hmem ⊢
        exact ⟨trivial, hmem.2.symm⟩
    · simp [hlt]

theorem ws_payload_loop_failed_send (send : Nat → esp_err_t) (fd : frame_data_t) :
    ∀ (d sent k : Nat) (res : esp_err_t), fd.len - sent = d →
      ∀ (dat : List UInt8) (c : esp_err_t),
        Event.send_chunk dat c ∈ (ws_payload_loop send fd sent k res).events → c ≠ ESP_OK →
        (ws_payload_loop send fd sent k res).res = c := by
  intro d
  induction d using Nat.strong_induction_on with
  | _ d ih =>
    intro sent k res hd dat c
    rw [ws_payload_loop]
    by_cases hlt : sent < fd.len
    · simp only [hlt, if_true]
      by_cases hk : send k = ESP_OK
      · simp only [hk, ne_eq, not_true_eq_false, if_false]
        have hpos : 0 < (if fd.len - sent > ws_chunk_size then ws_chunk_size
            else fd.len - sent) := by
          simp only [ws_chunk_size]
          split <;> omega
        have := ih (fd.len - (sent + (if fd.len - sent > ws_chunk_size then ws_chunk_size
          else fd.len - sent))) (by omega) (sent + (if fd.len - sent > ws_chunk_size
          then ws_chunk_size else fd.len - sent)) (k + 1) ESP_OK rfl dat c
        intro hmem hc
        simp only [List.mem_cons, Event.send_chunk.injEq] at hmem
        rcases hmem with ⟨_, h⟩ | h
        · exact absurd h hc
        · exact this h hc
      · intro hmem _
        simp only [hk, ne_eq, not_false_eq_true, if_true, List.mem_singleton,
          Event.send_chunk.injEq] at hmem ⊢
        exact hmem.2.symm
    · simp [hlt]

theorem getLast_cons_append_pair {α : Type} (x a b : α) (l : List α) :
    (x :: (l ++ [a, b])).getLast? = some b := by
  have h : x :: (l ++ [a, b]) = (x :: l ++ [a]) ++ [b] := by simp
  rw [h, List.getLast?_concat]

theorem payload_loop_no_long_delay (send : Nat → esp_err_t) (fb : camera_fb_t)
    (sent k ms : Nat) (res : esp_err_t) (hms : ms ≠ 5) :
    Event.vTaskDelay ms ∉ (payload_loop send fb sent k res).events := by
  rw [← List.count_eq_zero, List.count]
  exact payload_loop_countP _ send fb (fun _ _ => by simp) (by simpa using fun h => hms h.symm)
    (fb.len - sent) sent k res rfl

/-! ## The error counter across one iteration of the direct handler -/

/-- An iteration that ends in a failed write and leaves the loop running counts the error:
the counter is incremented, and when it reaches max_errors the 5000 ms pause is the last
call of the iteration and the counter restarts at 0. -/
theorem stream_iteration_failed (s : StreamSession) (fb : Option camera_fb_t)
    (send : Nat → esp_err_t)
    (hf : (stream_iteration s fb send).path.write_failed = true)
    (hr : (stream_iteration s fb send).running = true) :
    (stream_iteration s fb send).st.error_count
      = (if size_inc s.error_count ≥ max_errors then 0 else size_inc s.error_count) ∧
    (size_inc s.error_count ≥ max_errors →
      (stream_iteration s fb send).events.getLast? = some (Event.vTaskDelay 5000)) ∧
    (size_inc s.error_count < max_errors →
      Event.vTaskDelay 5000 ∉ (stream_iteration s fb send).events) := by
  cases fb with
  | none => simp [stream_iteration, Path.write_failed] at hf
  | some fb =>
    have hpl := payload_loop_no_long_delay send fb 0 2 5000 (send 1) (by decide)
    revert hf hr
    simp only [stream_iteration, count_error]
    split_ifs <;> simp_all [Path.write_failed, getLast_cons_append_pair]

/-- An iteration that attempts no write (no frame, skipped, oversize) leaves the error counter
as it is and takes no 5000 ms pause. -/
theorem stream_iteration_not_forwarded (s : StreamSession) (fb : Option camera_fb_t)
    (send : Nat → esp_err_t)
    (hf : (stream_iteration s fb send).path.forwarded = false) :
    (stream_iteration s fb send).st.error_count = s.error_count ∧
    (stream_iteration s fb send).running = true ∧
    Event.vTaskDelay 5000 ∉ (stream_iteration s fb send).events := by
  cases fb with
  | none => simp [stream_iteration]
  | some fb =>
    revert hf
    simp only [stream_iteration, count_error]
    split_ifs <;> simp_all [Path.forwarded]

/-- The loop is left only by the break after a failed boundary or header write whose code is
a disconnect code; the local res then holds that code. -/
theorem stream_iteration_break (s : StreamSession) (fb : Option camera_fb_t)
    (send : Nat → esp_err_t)
    (hr : (stream_iteration s fb send).running = false) :
    ((stream_iteration s fb send).path = Path.boundary_failed ∨
      (stream_iteration s fb send).path = Path.header_failed) ∧
    is_disconnect (stream_iteration s fb send).st.res = true := by
  cases fb with
  | none => simp [stream_iteration] at hr
  | some fb =>
    revert hr
    simp only [stream_iteration, count_error]
    split_ifs <;> simp_all

/-! ## The error counter across a run of the direct handler -/

theorem final_session_cons (s : StreamSession) (r : Step) (l : List Step) :
    final_session s (r :: l) = final_session r.st l := by
  cases l with
  | nil => rfl
  | cons a t =>
    simp only [final_session, List.getLast?_cons_cons]
    cases h : (a :: t).getLast? with
    | none => simp at h
    | some x => rfl

theorem size_inc_of_lt (x : Nat) (h : x + 1 < SIZE_MOD) : size_inc x = x + 1 := by
  simp [size_inc, Nat.mod_eq_of_lt h]

theorem trace_cons (r : Step) (l : List Step) : trace (r :: l) = r.events ++ trace l := by
  simp [trace]

theorem not_forwarded_of_not_failed (p : Path) (h1 : p.write_failed = false)
    (h2 : p ≠ Path.sent) : p.forwarded = false := by
  cases p <;> simp_all [Path.write_failed, Path.forwarded]

/-- While fewer than max_errors failures have accumulated and no send succeeds, the error
counter is the number of failed iterations and no 5000 ms pause is taken. -/
theorem stream_run_error_count (pre : List IterInput) :
    ∀ (s : StreamSession),
      (∀ r ∈ stream_run s pre, r.running = true) →
      (∀ r ∈ stream_run s pre, r.path ≠ Path.sent) →
      s.error_count + (stream_run s pre).countP (fun r => r.path.write_failed) < max_errors →
      (final_session s (stream_run s pre)).error_count
        = s.error_count + (stream_run s pre).countP (fun r => r.path.write_failed) ∧
      Event.vTaskDelay 5000 ∉ trace (stream_run s pre) ∧
      (stream_run s pre).length = pre.length := by
  induction pre with
  | nil => intro s _ _ _; simp [stream_run, final_session, trace]
  | cons i rest ih =>
    intro s hrun hsent hlt
    have hr : (stream_iteration s i.fb i.send).running = true :=
      hrun _ (by simp [stream_run])
    have hns : (stream_iteration s i.fb i.send).path ≠ Path.sent :=
      hsent _ (by simp [stream_run])
    have hunf : stream_run s (i :: rest)
        = stream_iteration s i.fb i.send
          :: stream_run (stream_iteration s i.fb i.send).st rest := by
      simp [stream_run, hr]
    rw [hunf] at hrun hsent hlt ⊢
    rw [final_session_cons, trace_cons, List.countP_cons] at *
    have hrun2 : ∀ r ∈ stream_run (stream_iteration s i.fb i.send).st rest,
        r.running = true := fun r h => hrun r (List.mem_cons_of_mem _ h)
    have hsent2 : ∀ r ∈ stream_run (stream_iteration s i.fb i.send).st rest,
        r.path ≠ Path.sent := fun r h => hsent r (List.mem_cons_of_mem _ h)
    by_cases hf : (stream_iteration s i.fb i.send).path.write_failed = true
    · simp only [hf, if_true] at hlt ⊢
      have hmax : max_errors = 5 := rfl
      have hinc : size_inc s.error_count = s.error_count + 1 :=
        size_inc_of_lt _ (by simp only [SIZE_MOD]; omega)
      obtain ⟨h1, _, h3⟩ := stream_iteration_failed s i.fb i.send hf hr
      rw [hinc] at h1 h3
      have he : (stream_iteration s i.fb i.send).st.error_count = s.error_count + 1 := by
        rw [h1, if_neg (by omega)]
      obtain ⟨g1, g2, g3⟩ := ih _ hrun2 hsent2 (by omega)
      refine ⟨by omega, ?_, by simp [g3]⟩
      simp only [List.mem_append, not_or]
      exact ⟨h3 (by omega), g2⟩
    · have hf2 : (stream_iteration s i.fb i.send).path.write_failed = false := by
        simpa using hf
      simp only [hf2] at hlt ⊢
      obtain ⟨h1, _, h3⟩ := stream_iteration_not_forwarded s i.fb i.send
        (not_forwarded_of_not_failed _ hf2 hns)
      obtain ⟨g1, g2, g3⟩ := ih _ hrun2 hsent2 (by simpa [h1] using hlt)
      refine ⟨by simpa [h1] using g1, ?_, by simp [g3]⟩
      simp only [List.mem_append, not_or]
      exact ⟨h3, g2⟩

theorem stream_run_append_one (pre : List IterInput) (last : IterInput) :
    ∀ (s : StreamSession), (∀ r ∈ stream_run s pre, r.running = true) →
      (stream_run s pre).length = pre.length →
      stream_run s (pre ++ [last])
        = stream_run s pre
          ++ [stream_iteration (final_session s (stream_run s pre)) last.fb last.send] := by
  induction pre with
  | nil => intro s _ _; simp [stream_run, final_session]
  | cons i rest ih =>
    intro s hrun hlen
    have hr : (stream_iteration s i.fb i.send).running = true :=
      hrun _ (by simp [stream_run])
    have hunf : stream_run s (i :: rest)
        = stream_iteration s i.fb i.send
          :: stream_run (stream_iteration s i.fb i.send).st rest := by
      simp [stream_run, hr]
    have hunf2 : stream_run s (i :: rest ++ [last])
        = stream_iteration s i.fb i.send
          :: stream_run (stream_iteration s i.fb i.send).st (rest ++ [last]) := by
      simp [stream_run, hr]
    rw [hunf] at hrun hlen
    rw [hunf, hunf2, final_session_cons, ih _ (fun r h => hrun r (List.mem_cons_of_mem _ h))
      (by simpa using hlen)]
    simp

/-! ## The frame queue -/

theorem xQueueSend_capacity (q : Queue) (item : frame_data_t) :
    (xQueueSend q item).1.capacity = q.capacity := by
  simp only [xQueueSend]
  split <;> rfl

theorem xQueueSend_bounded (q : Queue) (item : frame_data_t)
    (h : q.items.length ≤ q.capacity) :
    (xQueueSend q item).1.items.length ≤ q.capacity := by
  simp only [xQueueSend]
  split
  · simp only [List.length_append, List.length_singleton]
    omega
  · exact h

theorem capture_iteration_bounded (ws_streaming : Bool) (frame_count : Nat) (q : Queue)
    (fb : Option camera_fb_t) (malloc_ok : Bool) (h : q.items.length ≤ q.capacity) :
    (capture_iteration ws_streaming frame_count q fb malloc_ok).queue.capacity = q.capacity ∧
    (capture_iteration ws_streaming frame_count q fb malloc_ok).queue.items.length
      ≤ q.capacity := by
  have h1 := fun item => xQueueSend_capacity q item
  have h2 := fun item => xQueueSend_bounded q item h
  cases fb with
  | none =>
    simp only [capture_iteration]
    split_ifs <;> exact ⟨rfl, h⟩
  | some fb =>
    simp only [capture_iteration]
    split_ifs <;> first | exact ⟨rfl, h⟩ | exact ⟨h1 _, h2 _⟩

theorem ws_stream_iteration_bounded (q : Queue) (frames_sent : Nat) (send : Nat → esp_err_t)
    (h : q.items.length ≤ q.capacity) :
    (ws_stream_iteration q frames_sent send).queue.capacity = q.capacity ∧
    (ws_stream_iteration q frames_sent send).queue.items.length ≤ q.capacity := by
  cases hq : q.items with
  | nil =>
    simp only [ws_stream_iteration, xQueueReceive, hq]
    split_ifs <;> simp [hq]
  | cons x xs =>
    have hl : xs.length ≤ q.capacity := by
      rw [hq] at h
      simp only [List.length_cons] at h
      omega
    simp only [ws_stream_iteration, xQueueReceive, hq]
    split_ifs <;> exact ⟨rfl, hl⟩

theorem ws_step_bounded (w : WsSystem) (a : WsAction)
    (h : w.frame_queue.items.length ≤ w.frame_queue.capacity) :
    (ws_step w a).1.frame_queue.capacity = w.frame_queue.capacity ∧
    (ws_step w a).1.frame_queue.items.length ≤ w.frame_queue.capacity := by
  cases a with
  | capture fb malloc_ok =>
    exact capture_iteration_bounded w.ws_streaming w.frame_count w.frame_queue fb malloc_ok h
  | request set_type =>
    simp only [ws_step]
    split_ifs <;> exact ⟨rfl, h⟩
  | serve send =>
    simp only [ws_step]
    split_ifs
    · exact ws_stream_iteration_bounded w.frame_queue w.frames_sent send h
    · exact ⟨rfl, h⟩

theorem ws_run_bounded (actions : List WsAction) :
    ∀ (w : WsSystem), w.frame_queue.items.length ≤ w.frame_queue.capacity →
      (ws_run w actions).frame_queue.capacity = w.frame_queue.capacity ∧
      (ws_run w actions).frame_queue.items.length ≤ w.frame_queue.capacity := by
  induction actions with
  | nil => intro w h; exact ⟨rfl, h⟩
  | cons a rest ih =>
    intro w h
    obtain ⟨h1, h2⟩ := ws_step_bounded w a h
    obtain ⟨g1, g2⟩ := ih (ws_step w a).1 (by rw [h1]; exact h2)
    simp only [ws_run]
    exact ⟨by rw [g1, h1], by rw [← h1]; exact g2⟩

/-! ## The two filters of the direct handler -/

/-- The skip filter: a frame whose count is not a multiple of skip_frames is returned to the
driver and counted as dropped; nothing is written. -/
theorem stream_iteration_skipped (s : StreamSession) (fb : camera_fb_t)
    (send : Nat → esp_err_t) (h : size_inc s.frame_count % skip_frames s ≠ 0) :
    stream_iteration s (some fb) send =
      { st := { frame_count := size_inc s.frame_count, error_count := s.error_count,
                dropped_frames := size_inc s.dropped_frames, res := s.res },
        running := true,
        events := [Event.fb_get (some fb), Event.fb_return fb],
        path := Path.skipped } := by
  simp [stream_iteration, skip_frames_frame_count, h]

/-- A frame reaches the encoder exactly when it passes the skip filter and the size filter. -/
theorem stream_iteration_forwarded_iff (s : StreamSession) (fb : camera_fb_t)
    (send : Nat → esp_err_t) :
    (stream_iteration s (some fb) send).path.forwarded = true ↔
      size_inc s.frame_count % skip_frames s = 0 ∧ fb.len ≤ max_frame_size s := by
  simp only [stream_iteration, count_error, skip_frames_frame_count,
    max_frame_size_frame_count]
  split_ifs <;> simp_all [Path.forwarded]

/-- Every iteration that gets a frame counts it. -/
theorem stream_iteration_frame_count (s : StreamSession) (fb : camera_fb_t)
    (send : Nat → esp_err_t) :
    (stream_iteration s (some fb) send).st.frame_count = size_inc s.frame_count := by
  simp only [stream_iteration, count_error]
  split_ifs <;> rfl

/-- From error count 0 one iteration leaves the error count at 0 or 1. -/
theorem stream_iteration_error_count_le_one (s : StreamSession) (fb : camera_fb_t)
    (send : Nat → esp_err_t) (h0 : s.error_count = 0) :
    (stream_iteration s (some fb) send).st.error_count ≤ 1 := by
  have h1 : size_inc 0 = 1 := by decide
  simp only [stream_iteration, count_error]
  split_ifs <;> simp_all

/-- A run of four captures from a fresh session in which the second and the fourth frame are
within the baseline ceiling: when all four iterations are entered, the first and third frames
are dropped by the skip filter and the second and fourth reach the encoder. -/
theorem four_captures_from_init (f1 f2 f3 f4 : camera_fb_t) (s1 s2 s3 s4 : Nat → esp_err_t)
    (h2 : f2.len ≤ 25 * 1024) (h4 : f4.len ≤ 25 * 1024)
    (hall : (stream_run StreamSession.init
      [{ fb := some f1, send := s1 }, { fb := some f2, send := s2 },
       { fb := some f3, send := s3 }, { fb := some f4, send := s4 }]).length = 4) :
    (stream_run StreamSession.init
      [{ fb := some f1, send := s1 }, { fb := some f2, send := s2 },
       { fb := some f3, send := s3 }, { fb := some f4, send := s4 }]).map
        (fun r => r.path.forwarded) = [false, true, false, true] := by
  have e1 : stream_iteration StreamSession.init (some f1) s1 =
      { st := { frame_count := 1, error_count := 0, dropped_frames := 1, res := ESP_OK },
        running := true,
        events := [Event.fb_get (some f1), Event.fb_return f1],
        path := Path.skipped } := by
    rw [stream_iteration_skipped _ _ _ (by decide)]
    rfl
  have hfw2 : (stream_iteration
      { frame_count := 1, error_count := 0, dropped_frames := 1, res := ESP_OK }
      (some f2) s2).path.forwarded = true := by
    rw [stream_iteration_forwarded_iff]
    exact ⟨by decide, h2⟩
  have hfc2 := stream_iteration_frame_count
    { frame_count := 1, error_count := 0, dropped_frames := 1, res := ESP_OK } f2 s2
  have hec2 := stream_iteration_error_count_le_one
    { frame_count := 1, error_count := 0, dropped_frames := 1, res := ESP_OK } f2 s2 rfl
  generalize hr2 : stream_iteration
    { frame_count := 1, error_count := 0, dropped_frames := 1, res := ESP_OK }
    (some f2) s2 = r2 at hfw2 hfc2 hec2
  have hsk2 : skip_frames r2.st = 2 := by
    simp only [skip_frames]
    rw [if_neg (by omega)]
  have hfc2v : r2.st.frame_count = 2 := by
    rw [hfc2]
    decide
  have e3 : stream_iteration r2.st (some f3) s3 =
      { st := { frame_count := 3, error_count := r2.st.error_count,
                dropped_frames := size_inc r2.st.dropped_frames, res := r2.st.res },
        running := true,
        events := [Event.fb_get (some f3), Event.fb_return f3],
        path := Path.skipped } := by
    rw [stream_iteration_skipped _ _ _ (by rw [hsk2, hfc2v]; decide), hfc2v]
    rfl
  have hfw4 : (stream_iteration
      { frame_count := 3, error_count := r2.st.error_count,
        dropped_frames := size_inc r2.st.dropped_frames, res := r2.st.res }
      (some f4) s4).path.forwarded = true := by
    rw [stream_iteration_forwarded_iff]
    refine ⟨?_, ?_⟩
    · have : skip_frames
          { frame_count := 3, error_count := r2.st.error_count,
            dropped_frames := size_inc r2.st.dropped_frames, res := r2.st.res } = 2 := hsk2
      rw [this]
      show size_inc 3 % 2 = 0
      decide
    · have : max_frame_size
          { frame_count := 3, error_count := r2.st.error_count,
            dropped_frames := size_inc r2.st.dropped_frames, res := r2.st.res }
          = 25 * 1024 := by
        simp only [max_frame_size]
        rw [if_neg (by omega)]
      rw [this]
      exact h4
  have hrun2 : r2.running = true := by
    by_contra hn
    have hn2 : r2.running = false := by simpa using hn
    simp [stream_run, e1, hr2, hn2] at hall
  have hsk : Path.skipped.forwarded = false := rfl
  simp [stream_run, e1, hr2, hrun2, e3, hfw2, hfw4, hsk]

/-- A frame that passes both filters gets its boundary write, and the drop counter is left
as it is. -/
theorem stream_iteration_passed (s : StreamSession) (fb : camera_fb_t)
    (send : Nat → esp_err_t) (hskip : size_inc s.frame_count % skip_frames s = 0)
    (hsize : fb.len ≤ max_frame_size s) :
    Event.send_chunk (cstr STREAM_BOUNDARY) (send 0)
      ∈ (stream_iteration s (some fb) send).events ∧
    (stream_iteration s (some fb) send).st.dropped_frames = s.dropped_frames := by
  have hsz : ¬ fb.len > max_frame_size s := by omega
  simp only [stream_iteration, count_error, skip_frames_frame_count,
    max_frame_size_frame_count]
  split_ifs <;> simp_all

/-- The four captures from a fresh session step by step: the first and the third frame take
the skip path of the frame-skip filter whatever their length, with nothing written; the second
and the fourth pass both filters. -/
theorem four_captures_steps (f1 f2 f3 f4 : camera_fb_t) (s1 s2 s3 s4 : Nat → esp_err_t)
    (h2 : f2.len ≤ 25 * 1024) (h4 : f4.len ≤ 25 * 1024)
    (hall : (stream_run StreamSession.init
      [{ fb := some f1, send := s1 }, { fb := some f2, send := s2 },
       { fb := some f3, send := s3 }, { fb := some f4, send := s4 }]).length = 4) :
    ∃ r2 r4 : Step,
      stream_run StreamSession.init
        [{ fb := some f1, send := s1 }, { fb := some f2, send := s2 },
         { fb := some f3, send := s3 }, { fb := some f4, send := s4 }]
        = [{ st := { frame_count := 1, error_count := 0, dropped_frames := 1,
                     res := ESP_OK },
             running := true,
             events := [Event.fb_get (some f1), Event.fb_return f1],
             path := Path.skipped },
           r2,
           { st := { frame_count := 3, error_count := r2.st.error_count,
                     dropped_frames := size_inc r2.st.dropped_frames, res := r2.st.res },
             running := true,
             events := [Event.fb_get (some f3), Event.fb_return f3],
             path := Path.skipped },
           r4] ∧
      r2.path.forwarded = true ∧ r4.path.forwarded = true ∧
      r2.st.dropped_frames = 1 ∧ r4.st.dropped_frames = 2 := by
  have e1 : stream_iteration StreamSession.init (some f1) s1 =
      { st := { frame_count := 1, error_count := 0, dropped_frames := 1, res := ESP_OK },
        running := true,
        events := [Event.fb_get (some f1), Event.fb_return f1],
        path := Path.skipped } := by
    rw [stream_iteration_skipped _ _ _ (by decide)]
    rfl
  have hfw2 : (stream_iteration
      { frame_count := 1, error_count := 0, dropped_frames := 1, res := ESP_OK }
      (some f2) s2).path.forwarded = true := by
    rw [stream_iteration_forwarded_iff]
    exact ⟨by decide, h2⟩
  have hfc2 := stream_iteration_frame_count
    { frame_count := 1, error_count := 0, dropped_frames := 1, res := ESP_OK } f2 s2
  have hec2 := stream_iteration_error_count_le_one
    { frame_count := 1, error_count := 0, dropped_frames := 1, res := ESP_OK } f2 s2 rfl
  have hdr2 : (stream_iteration
      { frame_count := 1, error_count := 0, dropped_frames := 1, res := ESP_OK }
      (some f2) s2).st.dropped_frames = 1 :=
    (stream_iteration_passed
      { frame_count := 1, error_count := 0, dropped_frames := 1, res := ESP_OK }
      f2 s2 (by decide) h2).2
  generalize hr2 : stream_iteration
    { frame_count := 1, error_count := 0, dropped_frames := 1, res := ESP_OK }
    (some f2) s2 = r2 at hfw2 hfc2 hec2 hdr2
  have hsk2 : skip_frames r2.st = 2 := by
    simp only [skip_frames]
    rw [if_neg (by omega)]
  have hfc2v : r2.st.frame_count = 2 := by
    rw [hfc2]
    decide
  have e3 : stream_iteration r2.st (some f3) s3 =
      { st := { frame_count := 3, error_count := r2.st.error_count,
                dropped_frames := size_inc r2.st.dropped_frames, res := r2.st.res },
        running := true,
        events := [Event.fb_get (some f3), Event.fb_return f3],
        path := Path.skipped } := by
    rw [stream_iteration_skipped _ _ _ (by rw [hsk2, hfc2v]; decide), hfc2v]
    rfl
  have hsk4 : skip_frames
      { frame_count := 3, error_count := r2.st.error_count,
        dropped_frames := size_inc r2.st.dropped_frames, res := r2.st.res } = 2 := hsk2
  have hmx4 : max_frame_size
      { frame_count := 3, error_count := r2.st.error_count,
        dropped_frames := size_inc r2.st.dropped_frames, res := r2.st.res }
      = 25 * 1024 := by
    simp only [max_frame_size]
    rw [if_neg (by omega)]
  have hpass4 : size_inc (3 : Nat) % skip_frames
      { frame_count := 3, error_count := r2.st.error_count,
        dropped_frames := size_inc r2.st.dropped_frames, res := r2.st.res } = 0 := by
    rw [hsk4]
    decide
  have hfw4 : (stream_iteration
      { frame_count := 3, error_count := r2.st.error_count,
        dropped_frames := size_inc r2.st.dropped_frames, res := r2.st.res }
      (some f4) s4).path.forwarded = true := by
    rw [stream_iteration_forwarded_iff]
    exact ⟨hpass4, by rw [hmx4]; exact h4⟩
  have hdr4 : (stream_iteration
      { frame_count := 3, error_count := r2.st.error_count,
        dropped_frames := size_inc r2.st.dropped_frames, res := r2.st.res }
      (some f4) s4).st.dropped_frames = 2 := by
    rw [(stream_iteration_passed _ f4 s4 hpass4 (by rw [hmx4]; exact h4)).2, hdr2]
    show size_inc 1 = 2
    decide
  have hrun2 : r2.running = true := by
    by_contra hn
    have hn2 : r2.running = false := by simpa using hn
    simp [stream_run, e1, hr2, hn2] at hall
  refine ⟨r2, _, ?_, hfw2, hfw4, hdr2, hdr4⟩
  simp [stream_run, e1, hr2, hrun2, e3]

theorem forwarded_count_eq (steps : List Step) :
    forwarded_count steps = (steps.map (fun r => r.path.forwarded)).countP id := by
  rw [forwarded_count, List.countP_map]
  rfl

/-- An iteration whose boundary and header writes do not return a disconnect code leaves the
loop running. -/
theorem stream_iteration_running_of (s : StreamSession) (fb : Option camera_fb_t)
    (send : Nat → esp_err_t) (h0 : is_disconnect (send 0) = false)
    (h1 : is_disconnect (send 1) = false) :
    (stream_iteration s fb send).running = true := by
  cases fb with
  | none => simp [stream_iteration]
  | some fb =>
    simp only [stream_iteration, count_error]
    split_ifs <;> simp_all

theorem stream_run_length_of (inputs : List IterInput) :
    ∀ (s : StreamSession),
      (∀ i ∈ inputs, is_disconnect (i.send 0) = false ∧ is_disconnect (i.send 1) = false) →
      (stream_run s inputs).length = inputs.length := by
  induction inputs with
  | nil => intro s _; rfl
  | cons i rest ih =>
    intro s h
    have hi := h i (List.mem_cons_self _ _)
    have hr := stream_iteration_running_of s i.fb i.send hi.1 hi.2
    simp only [stream_run, hr, if_true, List.length_cons]
    rw [ih _ (fun j hj => h j (List.mem_cons_of_mem _ hj))]

/-! ## Failed writes and the fate of the loop -/

/-- In the direct handler a failed write is the last write of its iteration: the iteration
ends on a failure path and the local res holds the failing code. -/
theorem stream_iteration_failed_send (s : StreamSession) (fb : Option camera_fb_t)
    (send : Nat → esp_err_t) (dat : List UInt8) (c : esp_err_t)
    (hmem : Event.send_chunk dat c ∈ (stream_iteration s fb send).events)
    (hc : c ≠ ESP_OK) :
    (stream_iteration s fb send).path.write_failed = true ∧
    (stream_iteration s fb send).st.res = c := by
  cases fb with
  | none => simp [stream_iteration] at hmem
  | some fb =>
    have hpl := payload_loop_failed_send send fb (fb.len - 0) 0 2 (send 1) rfl dat c
    revert hmem
    simp only [stream_iteration, count_error]
    split_ifs <;> simp_all [Path.write_failed]

/-- In the queued handler every failed write ends the loop. -/
theorem ws_stream_iteration_failed_send (q : Queue) (frames_sent : Nat)
    (send : Nat → esp_err_t) (dat : List UInt8) (c : esp_err_t)
    (hmem : Event.send_chunk dat c ∈ (ws_stream_iteration q frames_sent send).events)
    (hc : c ≠ ESP_OK) :
    (ws_stream_iteration q frames_sent send).running = false := by
  cases hq : q.items with
  | nil =>
    revert hmem
    simp only [ws_stream_iteration, xQueueReceive, hq]
    split_ifs <;> simp_all
  | cons fd rest =>
    have hpl := ws_payload_loop_failed_send send fd (fd.len - 0) 0 2 (send 1) rfl dat c
    revert hmem
    simp only [ws_stream_iteration, xQueueReceive, hq]
    split_ifs <;> simp_all
    aesop

/-! ## The inter-frame delay -/

theorem stream_iteration_no_delay_200 (s : StreamSession) (fb : Option camera_fb_t)
    (send : Nat → esp_err_t) :
    Event.vTaskDelay 200 ∉ (stream_iteration s fb send).events := by
  cases fb with
  | none => simp [stream_iteration]
  | some fb =>
    have hpl := payload_loop_no_long_delay send fb 0 2 200 (send 1) (by decide)
    simp only [stream_iteration, count_error]
    split_ifs <;> simp_all [frame_delay]

theorem stream_run_no_delay_200 (inputs : List IterInput) :
    ∀ (s : StreamSession), Event.vTaskDelay 200 ∉ trace (stream_run s inputs) := by
  induction inputs with
  | nil => intro s; simp [stream_run, trace]
  | cons i rest ih =>
    intro s
    simp only [stream_run, trace_cons, List.mem_append, not_or]
    refine ⟨stream_iteration_no_delay_200 s i.fb i.send, ?_⟩
    split_ifs
    · exact ih _
    · simp [trace]

/-- After a fully successful send the error counter is 0 and the iteration ends with the 50 ms
delay. -/
theorem stream_iteration_after_sent (s : StreamSession) (fb : Option camera_fb_t)
    (send : Nat → esp_err_t) (h : (stream_iteration s fb send).path = Path.sent) :
    (stream_iteration s fb send).st.error_count = 0 ∧
    (stream_iteration s fb send).events.getLast? = some (Event.vTaskDelay 50) := by
  cases fb with
  | none => simp [stream_iteration] at h
  | some fb =>
    revert h
    simp only [stream_iteration, count_error]
    split_ifs <;> simp_all [frame_delay, getLast_cons_append_pair]

/-! ## The drain loop of the teardown -/

theorem drain_queue_nil (q : Queue) (h : q.items = []) :
    drain_queue q = (q, [Event.queue_receive none]) := by
  have h1 : xQueueReceive q = (q, none) := by simp [xQueueReceive, h]
  rw [drain_queue]
  split
  · rename_i fd hfd
    rw [h1] at hfd
    simp at hfd
  · rw [h1]

theorem drain_queue_cons (q : Queue) (x : frame_data_t) (xs : List frame_data_t)
    (h : q.items = x :: xs) :
    drain_queue q =
      ((drain_queue { q with items := xs }).1,
        Event.queue_receive (some x) :: Event.free x
          :: (drain_queue { q with items := xs }).2) := by
  have h1 : xQueueReceive q = ({ q with items := xs }, some x) := by simp [xQueueReceive, h]
  rw [drain_queue]
  split
  · rename_i fd hfd
    rw [h1] at hfd
    simp only [Option.some.injEq] at hfd
    subst hfd
    rw [h1]
  · rename_i hn
    rw [h1] at hn
    simp at hn

/-- The drain loop terminates with an empty queue and frees every queued copy as often as it
is queued. -/
theorem drain_queue_frees_all (n : Nat) :
    ∀ (q : Queue), q.items.length = n →
      (drain_queue q).1.items = [] ∧
      (drain_queue q).2.countP is_free = q.items.length ∧
      ∀ fd, (drain_queue q).2.count (Event.free fd) = q.items.count fd := by
  induction n with
  | zero =>
    intro q hq
    have hnil : q.items = [] := List.eq_nil_of_length_eq_zero hq
    rw [drain_queue_nil q hnil]
    simp [hnil, is_free]
  | succ n ih =>
    intro q hq
    cases hitems : q.items with
    | nil => simp [hitems] at hq
    | cons x xs =>
      have hlen : xs.length = n := by
        rw [hitems] at hq
        simpa using hq
      obtain ⟨h1, h2, h3⟩ := ih { q with items := xs } hlen
      rw [drain_queue_cons q x xs hitems]
      refine ⟨h1, ?_, ?_⟩
      · simp [List.countP_cons, is_free, h2]
      · intro fd
        simp only [List.count_cons, h3 fd]
        by_cases hx : x = fd <;> simp [hx]

/-! ## Claims -/

/-- C1: in both handlers, for a frame that passes the filters and whose writes all succeed, the
chunks written are the boundary, the part header carrying the decimal frame length n, and
payload chunks whose concatenation is the frame buffer, n bytes in all. -/
theorem C1_content_length_equals_payload_written
    (s : StreamSession) (fb : camera_fb_t) (q : Queue) (fbq : camera_fb_t)
    (rest : List frame_data_t) (frames_sent : Nat) (send : Nat → esp_err_t)
    (hskip : size_inc s.frame_count % skip_frames s = 0)
    (hsize : fb.len ≤ max_frame_size s)
    (hsizeq : fbq.len ≤ 40 * 1024)
    (hq : q.items = heap_copy fbq :: rest)
    (hsend : ∀ k, send k = ESP_OK) :
    (∃ payload : List (List UInt8),
      chunks_written (stream_iteration s (some fb) send).events
        = cstr STREAM_BOUNDARY
          :: (cstr "Content-Type: image/jpeg\r\nContent-Length: " ++ decimal fb.len
              ++ cstr "\r\n\r\n")
          :: payload
      ∧ payload.flatten = fb.buf ∧ payload.flatten.length = fb.len) ∧
    (∃ payload : List (List UInt8),
      chunks_written (ws_stream_iteration q frames_sent send).events
        = cstr STREAM_BOUNDARY
          :: (cstr "Content-Type: image/jpeg\r\nContent-Length: " ++ decimal fbq.len
              ++ cstr "\r\n\r\n")
          :: payload
      ∧ payload.flatten = fbq.buf ∧ payload.flatten.length = fbq.len) := by
  constructor
  · obtain ⟨_, _, _, h4⟩ := payload_loop_ok send fb (fb.len - 0) 0 2 ESP_OK rfl
      (Nat.zero_le _) (fun j _ => hsend j) rfl
    have hlt : fb.len < SIZE_MOD := by
      have := max_frame_size_le s
      simp only [SIZE_MOD]
      omega
    refine ⟨chunks_written (payload_loop send fb 0 2 ESP_OK).events, ?_, ?_, ?_⟩
    · rw [stream_iteration_sent s fb send hskip hsize hsend]
      simp [chunks_written, chunks_written_append, STREAM_PART, fmt_u_of_lt fb.len hlt]
    · simpa using h4
    · rw [h4]
      simp [camera_fb_t.len]
  · have hfd : (heap_copy fbq).len = (heap_copy fbq).data.length := by
      simp [heap_copy, camera_fb_t.len]
    obtain ⟨_, _, h4⟩ := ws_payload_loop_ok send (heap_copy fbq) hfd
      ((heap_copy fbq).len - 0) 0 2 ESP_OK rfl (Nat.zero_le _) (fun j _ => hsend j) rfl
    have hlt : fbq.len < SIZE_MOD := by
      simp only [SIZE_MOD]
      omega
    refine ⟨chunks_written (ws_payload_loop send (heap_copy fbq) 0 2 ESP_OK).events,
      ?_, ?_, ?_⟩
    · rw [ws_stream_iteration_sent q (heap_copy fbq) rest frames_sent send hq hfd hsend]
      have hl : (heap_copy fbq).len = fbq.len := rfl
      simp [chunks_written, chunks_written_append, STREAM_PART, hl, fmt_u_of_lt fbq.len hlt]
    · rw [h4]
      simp [heap_copy, camera_fb_t.len]
    · rw [h4]
      simp [heap_copy, camera_fb_t.len]

/-- C1 at a concrete input: a three-byte frame passing both filters on a transport where every
write succeeds, in the direct handler and at the head of the queue. -/
theorem C1_content_length_equals_payload_written_witness :
    (∃ payload : List (List UInt8),
      chunks_written (stream_iteration session_after_one (some small_fb) send_ok).events
        = cstr STREAM_BOUNDARY
          :: (cstr "Content-Type: image/jpeg\r\nContent-Length: " ++ decimal small_fb.len
              ++ cstr "\r\n\r\n")
          :: payload
      ∧ payload.flatten = small_fb.buf ∧ payload.flatten.length = small_fb.len) ∧
    (∃ payload : List (List UInt8),
      chunks_written (ws_stream_iteration { capacity := 5, items := [heap_copy small_fb] } 0
          send_ok).events
        = cstr STREAM_BOUNDARY
          :: (cstr "Content-Type: image/jpeg\r\nContent-Length: " ++ decimal small_fb.len
              ++ cstr "\r\n\r\n")
          :: payload
      ∧ payload.flatten = small_fb.buf ∧ payload.flatten.length = small_fb.len) :=
  C1_content_length_equals_payload_written session_after_one small_fb
    { capacity := 5, items := [heap_copy small_fb] } small_fb [] 0 send_ok
    (by decide) (by decide) (by decide) rfl (fun _ => rfl)

/-- C2, the direct handler at the failing input: the disconnect code ESP_ERR_HTTPD_RESP_SEND
on the first payload chunk leaves the session loop running; the error is counted like a
transient one, the 1000 ms pause is taken, and the next iteration acquires a frame and writes
the boundary for it. -/
theorem C2_payload_disconnect_does_not_end_session :
    is_disconnect (send_payload_disconnect 2) = true ∧
    (stream_iteration session_after_one (some small_fb) send_payload_disconnect).running
      = true ∧
    (stream_iteration session_after_one (some small_fb) send_payload_disconnect).st.error_count
      = 1 ∧
    (stream_iteration session_after_one (some small_fb) send_payload_disconnect).events
      = [Event.fb_get (some small_fb),
         Event.send_chunk (cstr STREAM_BOUNDARY) ESP_OK,
         Event.send_chunk (STREAM_PART 3) ESP_OK,
         Event.send_chunk [255, 216, 255] ESP_ERR_HTTPD_RESP_SEND,
         Event.fb_return small_fb,
         Event.vTaskDelay 1000] ∧
    (trace (stream_run session_after_one
        [{ fb := some small_fb, send := send_payload_disconnect },
         { fb := some small_fb, send := send_ok },
         { fb := some small_fb, send := send_ok }])).countP is_fb_acquire = 3 := by
  have h2 : send_payload_disconnect 2 = ESP_ERR_HTTPD_RESP_SEND := rfl
  have h0 : send_payload_disconnect 0 = ESP_OK := rfl
  have h1 : send_payload_disconnect 1 = ESP_OK := rfl
  have hne : ESP_ERR_HTTPD_RESP_SEND ≠ ESP_OK := by decide
  have hpl : payload_loop send_payload_disconnect small_fb 0 2 ESP_OK
      = { sent := 0, send_failed := true, res := ESP_ERR_HTTPD_RESP_SEND,
          events := [Event.send_chunk [255, 216, 255] ESP_ERR_HTTPD_RESP_SEND] } := by
    rw [payload_loop]
    simp [h2, hne, small_fb, camera_fb_t.len, chunk_size]
  have hit : stream_iteration session_after_one (some small_fb) send_payload_disconnect
      = { st := { frame_count := 2, error_count := 1, dropped_frames := 1,
                  res := ESP_ERR_HTTPD_RESP_SEND },
          running := true,
          events := [Event.fb_get (some small_fb),
                     Event.send_chunk (cstr STREAM_BOUNDARY) ESP_OK,
                     Event.send_chunk (STREAM_PART 3) ESP_OK,
                     Event.send_chunk [255, 216, 255] ESP_ERR_HTTPD_RESP_SEND,
                     Event.fb_return small_fb,
                     Event.vTaskDelay 1000],
          path := Path.payload_failed } := by
    have hskip : size_inc session_after_one.frame_count % skip_frames session_after_one = 0 := by
      decide
    have hsz : ¬ small_fb.len > max_frame_size session_after_one := by decide
    have hlen : small_fb.len = 3 := rfl
    have hinc : size_inc session_after_one.frame_count = 2 := by decide
    have herr : size_inc session_after_one.error_count = 1 := by decide
    simp [stream_iteration, skip_frames_frame_count, max_frame_size_frame_count, hskip, hsz,
      h0, h1, hpl, snprintf_part_exact, count_error, hlen, hinc, herr, max_errors]
    decide
  refine ⟨by decide, ?_, ?_, ?_, ?_⟩
  · rw [hit]
  · rw [hit]
  · rw [hit]
  · have hskip : stream_iteration
          { frame_count := 2, error_count := 1, dropped_frames := 1,
            res := ESP_ERR_HTTPD_RESP_SEND } (some small_fb) send_ok
        = { st := { frame_count := 3, error_count := 1, dropped_frames := 2,
                    res := ESP_ERR_HTTPD_RESP_SEND },
            running := true,
            events := [Event.fb_get (some small_fb), Event.fb_return small_fb],
            path := Path.skipped } := by
      decide
    simp only [stream_run, hit, hskip, if_true, trace, List.map, List.flatten]
    have hc := stream_iteration_countP is_fb_acquire
      { frame_count := 3, error_count := 1, dropped_frames := 2,
        res := ESP_ERR_HTTPD_RESP_SEND } small_fb send_ok (fun _ _ => rfl) (fun _ => rfl)
    have hrun : (stream_iteration
        { frame_count := 3, error_count := 1, dropped_frames := 2,
          res := ESP_ERR_HTTPD_RESP_SEND } (some small_fb) send_ok).running = true := by
      rw [stream_iteration_sent _ small_fb send_ok (by decide) (by decide) (fun _ => rfl)]
    simp [hrun, List.countP_append, List.countP_cons, hc, is_fb_acquire]

/-- C3: every acquired frame is released exactly once on every path. In one iteration of the
direct handler and of camera_capture_task the frame got from esp_camera_fb_get is passed to
esp_camera_fb_return exactly once, and nothing is released when no frame was got. In the queued
variant the producer either frees its heap copy (queue full) or hands it to the queue, never
both and never neither, the consumer frees the copy it dequeued exactly once on each of its
paths and frees nothing on a timeout, and the drain loop of the teardown frees each copy still
queued exactly as often as it is queued and leaves the queue empty. -/
theorem C3_frame_released_exactly_once :
    (∀ (s : StreamSession) (fb : camera_fb_t) (send : Nat → esp_err_t),
      (stream_iteration s (some fb) send).events.countP is_fb_acquire = 1 ∧
      (stream_iteration s (some fb) send).events.count (Event.fb_return fb) = 1 ∧
      (stream_iteration s (some fb) send).events.countP is_fb_return = 1) ∧
    (∀ (s : StreamSession) (send : Nat → esp_err_t),
      (stream_iteration s none send).events.countP is_fb_acquire = 0 ∧
      (stream_iteration s none send).events.countP is_fb_return = 0) ∧
    (∀ (frame_count : Nat) (q : Queue) (fb : camera_fb_t) (malloc_ok : Bool),
      (capture_iteration true frame_count q (some fb) malloc_ok).events.countP is_fb_acquire
        = 1 ∧
      (capture_iteration true frame_count q (some fb) malloc_ok).events.count
        (Event.fb_return fb) = 1 ∧
      (capture_iteration true frame_count q (some fb) malloc_ok).events.countP is_fb_return
        = 1) ∧
    (∀ (ws_streaming : Bool) (frame_count : Nat) (q : Queue) (malloc_ok : Bool),
      (capture_iteration ws_streaming frame_count q none malloc_ok).events.countP is_fb_acquire
        = 0 ∧
      (capture_iteration ws_streaming frame_count q none malloc_ok).events.countP is_fb_return
        = 0) ∧
    (∀ (frame_count : Nat) (q : Queue) (fb : Option camera_fb_t) (malloc_ok : Bool),
      (capture_iteration false frame_count q fb malloc_ok).events.countP is_fb_acquire = 0 ∧
      (capture_iteration false frame_count q fb malloc_ok).events.countP is_fb_return = 0) ∧
    (∀ (frame_count : Nat) (q : Queue) (fb : camera_fb_t) (malloc_ok : Bool),
      ((capture_iteration true frame_count q (some fb) malloc_ok).events.countP is_alloc = 1 ∧
        (((capture_iteration true frame_count q (some fb) malloc_ok).events.count
              (Event.free (heap_copy fb)) = 1 ∧
            (capture_iteration true frame_count q (some fb) malloc_ok).events.countP is_free
              = 1 ∧
            (capture_iteration true frame_count q (some fb) malloc_ok).queue = q) ∨
          ((capture_iteration true frame_count q (some fb) malloc_ok).events.countP is_free
              = 0 ∧
            (capture_iteration true frame_count q (some fb) malloc_ok).queue.items
              = q.items ++ [heap_copy fb]))) ∨
      ((capture_iteration true frame_count q (some fb) malloc_ok).events.countP is_alloc = 0 ∧
        (capture_iteration true frame_count q (some fb) malloc_ok).events.countP is_free = 0 ∧
        (capture_iteration true frame_count q (some fb) malloc_ok).queue = q)) ∧
    (∀ (q : Queue) (fd : frame_data_t) (rest : List frame_data_t) (frames_sent : Nat)
        (send : Nat → esp_err_t), q.items = fd :: rest →
      (ws_stream_iteration q frames_sent send).events.count (Event.free fd) = 1 ∧
      (ws_stream_iteration q frames_sent send).events.countP is_free = 1 ∧
      (ws_stream_iteration q frames_sent send).queue.items = rest) ∧
    (∀ (q : Queue) (frames_sent : Nat) (send : Nat → esp_err_t), q.items = [] →
      (ws_stream_iteration q frames_sent send).events.countP is_free = 0 ∧
      (ws_stream_iteration q frames_sent send).queue = q) ∧
    (∀ (q : Queue),
      (drain_queue q).1.items = [] ∧
      (drain_queue q).2.countP is_free = q.items.length ∧
      ∀ fd, (drain_queue q).2.count (Event.free fd) = q.items.count fd) := by
  refine ⟨?_, ?_, ?_, ?_, ?_, ?_, ?_, ?_, fun q => drain_queue_frees_all _ q rfl⟩
  · intro s fb send
    refine ⟨?_, ?_, ?_⟩
    · rw [stream_iteration_countP is_fb_acquire s fb send (fun _ _ => rfl) (fun _ => rfl)]
      simp [is_fb_acquire]
    · rw [List.count, stream_iteration_countP _ s fb send (fun _ _ => rfl) (fun _ => rfl)]
      simp
    · rw [stream_iteration_countP is_fb_return s fb send (fun _ _ => rfl) (fun _ => rfl)]
      simp [is_fb_return]
  · intro s send
    simp [stream_iteration, is_fb_acquire, is_fb_return, List.countP_cons]
  · intro frame_count q fb malloc_ok
    simp only [capture_iteration, xQueueSend]
    split_ifs <;> simp_all [List.countP_cons, List.count_cons, is_fb_acquire, is_fb_return]
  · intro ws_streaming frame_count q malloc_ok
    cases ws_streaming <;>
      simp [capture_iteration, List.countP_cons, is_fb_acquire, is_fb_return]
  · intro frame_count q fb malloc_ok
    simp [capture_iteration, List.countP_cons, is_fb_acquire, is_fb_return]
  · intro frame_count q fb malloc_ok
    simp only [capture_iteration, xQueueSend]
    split_ifs <;> simp_all [List.countP_cons, List.count_cons, is_alloc, is_free]
  · intro q fd rest frames_sent send hq
    have hpl := ws_payload_loop_countP is_free send fd (fun _ _ => rfl) (fd.len - 0) 0 2
      (send 1) rfl
    have hpl2 := ws_payload_loop_countP (fun e => e == Event.free fd) send fd
      (fun _ _ => by simp) (fd.len - 0) 0 2 (send 1) rfl
    simp only [ws_stream_iteration, xQueueReceive, hq]
    split_ifs <;>
      simp_all [List.countP_cons, List.countP_append, List.count, is_free]
  · intro q frames_sent send hq
    simp only [ws_stream_iteration, xQueueReceive, hq]
    split_ifs <;> simp [List.countP_cons, is_free]

/-- C4: starting from error count 0, when four iterations of a run have ended in a transient
write failure with no successful send in between, a fifth transient failure makes the handler
take the 5000 ms pause (the first of the run, and the last call of that iteration); afterwards
the error counter is 0, the ceiling for the next frame is 25 * 1024 bytes, and the loop is
still running. -/
theorem C4_cooldown_after_max_errors (s : StreamSession) (pre : List IterInput)
    (last : IterInput)
    (h0 : s.error_count = 0)
    (htrans : ∀ r ∈ stream_run s pre, r.path.write_failed = true →
      is_disconnect r.st.res = false)
    (hsent : ∀ r ∈ stream_run s pre, r.path ≠ Path.sent)
    (hfour : (stream_run s pre).countP (fun r => r.path.write_failed) = 4)
    (hfail : (stream_iteration (final_session s (stream_run s pre)) last.fb
      last.send).path.write_failed = true)
    (hlast : is_disconnect (stream_iteration (final_session s (stream_run s pre)) last.fb
      last.send).st.res = false) :
    stream_run s (pre ++ [last])
      = stream_run s pre
        ++ [stream_iteration (final_session s (stream_run s pre)) last.fb last.send] ∧
    (final_session s (stream_run s pre)).error_count = 4 ∧
    Event.vTaskDelay 5000 ∉ trace (stream_run s pre) ∧
    (stream_iteration (final_session s (stream_run s pre)) last.fb last.send).events.getLast?
      = some (Event.vTaskDelay 5000) ∧
    (final_session s (stream_run s (pre ++ [last]))).error_count = 0 ∧
    max_frame_size (final_session s (stream_run s (pre ++ [last]))) = 25 * 1024 ∧
    (∀ r ∈ stream_run s (pre ++ [last]), r.running = true) := by
  have hrun : ∀ r ∈ stream_run s pre, r.running = true := by
    intro r hr
    by_contra hnr
    have hnr2 : r.running = false := by simpa using hnr
    have hmem := hr
    obtain ⟨i, s1, rfl⟩ : ∃ (i : IterInput) (s1 : StreamSession),
        r = stream_iteration s1 i.fb i.send := by
      clear htrans hsent hfour hfail hlast hnr hnr2 h0 hmem
      induction pre generalizing s with
      | nil => simp [stream_run] at hr
      | cons i rest ih =>
        simp only [stream_run, List.mem_cons] at hr
        rcases hr with h | h
        · exact ⟨i, s, h⟩
        · split_ifs at h
          · exact ih _ h
          · simp at h
    obtain ⟨hp, hd⟩ := stream_iteration_break s1 i.fb i.send hnr2
    have hwf : (stream_iteration s1 i.fb i.send).path.write_failed = true := by
      rcases hp with h | h <;> simp [h, Path.write_failed]
    have := htrans _ hmem hwf
    simp [hd] at this
  obtain ⟨g1, g2, g3⟩ := stream_run_error_count pre s hrun hsent
    (by simp [h0, hfour, max_errors])
  have he4 : (final_session s (stream_run s pre)).error_count = 4 := by
    rw [g1, h0, hfour]
  have hlr : (stream_iteration (final_session s (stream_run s pre)) last.fb
      last.send).running = true := by
    by_contra hnr
    have hnr2 : (stream_iteration (final_session s (stream_run s pre)) last.fb
        last.send).running = false := by simpa using hnr
    have := (stream_iteration_break _ _ _ hnr2).2
    simp [hlast] at this
  obtain ⟨f1, f2, _⟩ := stream_iteration_failed _ last.fb last.send hfail hlr
  have hinc : size_inc (final_session s (stream_run s pre)).error_count = 5 := by
    rw [he4]
    decide
  have happ := stream_run_append_one pre last s hrun g3
  have hfin : final_session s (stream_run s (pre ++ [last]))
      = (stream_iteration (final_session s (stream_run s pre)) last.fb last.send).st := by
    rw [happ]
    simp [final_session]
  have hz : (stream_iteration (final_session s (stream_run s pre)) last.fb
      last.send).st.error_count = 0 := by
    rw [f1, hinc]
    simp [max_errors]
  refine ⟨happ, he4, g2, f2 (by rw [hinc]; decide), ?_, ?_, ?_⟩
  · rw [hfin, hz]
  · rw [hfin]
    simp [max_frame_size, hz]
  · intro r hr
    rw [happ, List.mem_append, List.mem_singleton] at hr
    rcases hr with h | h
    · exact hrun r h
    · rw [h]
      exact hlr

/-- C4 at a concrete run from a fresh session: 36 captures on a transport where every write
fails with ESP_FAIL; the captures numbered 2, 4, 12, 24 and 36 pass the skip filter and fail. -/
theorem C4_cooldown_after_max_errors_witness :
    (final_session StreamSession.init
      (stream_run StreamSession.init (List.replicate 35 failing_input))).error_count = 4 ∧
    (stream_iteration
        (final_session StreamSession.init
          (stream_run StreamSession.init (List.replicate 35 failing_input)))
        failing_input.fb failing_input.send).events.getLast?
      = some (Event.vTaskDelay 5000) ∧
    (final_session StreamSession.init
      (stream_run StreamSession.init
        (List.replicate 35 failing_input ++ [failing_input]))).error_count = 0 ∧
    max_frame_size
      (final_session StreamSession.init
        (stream_run StreamSession.init (List.replicate 35 failing_input ++ [failing_input])))
      = 25 * 1024 ∧
    (∀ r ∈ stream_run StreamSession.init (List.replicate 35 failing_input ++ [failing_input]),
      r.running = true) :=
  have h := C4_cooldown_after_max_errors StreamSession.init (List.replicate 35 failing_input)
    failing_input rfl (by decide) (by decide) (by decide) (by decide) (by decide)
  ⟨h.2.1, h.2.2.2.1, h.2.2.2.2.1, h.2.2.2.2.2.1, h.2.2.2.2.2.2⟩

/-- C5: after any sequence of capture-task iterations (pushes) and handler iterations (pops)
from server start, the frame queue holds at most 5 frames; and a push onto a full queue is
rejected: the queue, its entries and their order are unchanged, and the copy that is freed is
the incoming one. -/
theorem C5_queue_bounded_drop_newest (actions : List WsAction) (frame_count : Nat)
    (q : Queue) (fb : camera_fb_t)
    (hcap : q.capacity = 5) (hfull : q.items.length = 5)
    (hskip : size_inc frame_count % 2 = 0) (hsize : fb.len ≤ 40 * 1024) :
    (ws_run start_websocket_server actions).frame_queue.items.length ≤ 5 ∧
    xQueueSend q (heap_copy fb) = (q, false) ∧
    (capture_iteration true frame_count q (some fb) true).queue = q ∧
    (capture_iteration true frame_count q (some fb) true).events
      = [Event.fb_get (some fb), Event.malloc fb.len true,
         Event.queue_send (heap_copy fb) false, Event.free (heap_copy fb),
         Event.fb_return fb, Event.vTaskDelay 100] := by
  have hb := (ws_run_bounded actions start_websocket_server (by decide)).2
  have hsend : xQueueSend q (heap_copy fb) = (q, false) := by
    simp [xQueueSend, hcap, hfull]
  have hsz : ¬ fb.len > 40 * 1024 := by omega
  refine ⟨hb, hsend, ?_, ?_⟩
  · simp [capture_iteration, hskip, hsz, hsend]
  · simp [capture_iteration, hskip, hsz, hsend]

/-- C5 at a concrete input: a burst of seven pushes with no pop leaves five frames queued, and
a push onto the full queue of five leaves it as it was. -/
theorem C5_queue_bounded_drop_newest_witness :
    (ws_run start_websocket_server burst_schedule).frame_queue.items.length ≤ 5 ∧
    xQueueSend full_queue (heap_copy small_fb) = (full_queue, false) ∧
    (capture_iteration true 1 full_queue (some small_fb) true).queue = full_queue ∧
    (capture_iteration true 1 full_queue (some small_fb) true).events
      = [Event.fb_get (some small_fb), Event.malloc small_fb.len true,
         Event.queue_send (heap_copy small_fb) false, Event.free (heap_copy small_fb),
         Event.fb_return small_fb, Event.vTaskDelay 100] :=
  C5_queue_bounded_drop_newest burst_schedule 1 full_queue small_fb rfl rfl
    (by decide) (by decide)

/-- The burst of seven pushes fills the queue: exactly five frames are queued at its end. -/
theorem burst_schedule_fills_queue :
    (ws_run start_websocket_server burst_schedule).frame_queue.items.length = 5 := by
  decide

/-- C6 as stated fails on the code: from a fresh session (skip ratio 2, ceiling 25 KB) with
every write succeeding, the frames 10 KB, 10 KB, 30 KB, 10 KB give two forwarded frames, not
one. -/
theorem C6_not_exactly_one_forwarded :
    skip_frames StreamSession.init = 2 ∧
    max_frame_size StreamSession.init = 25 * 1024 ∧
    forwarded_count (stream_run StreamSession.init scenario_inputs) ≠ 1 := by
  have hlen : ∀ n, (frame_of_size n).len = n := fun n => by
    simp [frame_of_size, camera_fb_t.len]
  have hall : (stream_run StreamSession.init scenario_inputs).length = 4 :=
    stream_run_length_of scenario_inputs StreamSession.init (by
      intro i hi
      simp only [scenario_inputs, List.mem_cons, List.mem_singleton, List.not_mem_nil,
        or_false] at hi
      rcases hi with h | h | h | h <;> subst h <;> exact ⟨by decide, by decide⟩)
  have h := four_captures_from_init _ _ _ _ send_ok send_ok send_ok send_ok
    (by rw [hlen]; decide) (by rw [hlen]; decide) hall
  refine ⟨rfl, rfl, ?_⟩
  rw [forwarded_count_eq]
  simp only [scenario_inputs] at h ⊢
  rw [h]
  decide

/-- C6 as amended: from a fresh session (skip ratio 2, ceiling 25 KB), whenever the four frames
of 10 KB, 10 KB, 30 KB and 10 KB are all captured, whatever the writes return, exactly two of
the four are forwarded to the encoder, the second and the fourth. The first and the third are
dropped by the frame-skip filter: they take the skip path, on which the frame is returned and
nothing is written, although the first is within the ceiling and although the third, the 30 KB
frame, exceeds it; the size filter never sees them. Two frames are counted as dropped. -/
theorem C6_two_frames_forwarded (f1 f2 f3 f4 : camera_fb_t) (s1 s2 s3 s4 : Nat → esp_err_t)
    (h1 : f1.len = 10 * 1024) (h2 : f2.len = 10 * 1024) (h3 : f3.len = 30 * 1024)
    (h4 : f4.len = 10 * 1024)
    (hall : (stream_run StreamSession.init
      [{ fb := some f1, send := s1 }, { fb := some f2, send := s2 },
       { fb := some f3, send := s3 }, { fb := some f4, send := s4 }]).length = 4) :
    skip_frames StreamSession.init = 2 ∧
    max_frame_size StreamSession.init = 25 * 1024 ∧
    (stream_run StreamSession.init
      [{ fb := some f1, send := s1 }, { fb := some f2, send := s2 },
       { fb := some f3, send := s3 }, { fb := some f4, send := s4 }]).map
        (fun r => r.path.forwarded) = [false, true, false, true] ∧
    forwarded_count (stream_run StreamSession.init
      [{ fb := some f1, send := s1 }, { fb := some f2, send := s2 },
       { fb := some f3, send := s3 }, { fb := some f4, send := s4 }]) = 2 ∧
    f1.len ≤ max_frame_size StreamSession.init ∧
    f3.len > max_frame_size StreamSession.init ∧
    (∃ r2 r4 : Step,
      stream_run StreamSession.init
        [{ fb := some f1, send := s1 }, { fb := some f2, send := s2 },
         { fb := some f3, send := s3 }, { fb := some f4, send := s4 }]
        = [{ st := { frame_count := 1, error_count := 0, dropped_frames := 1,
                     res := ESP_OK },
             running := true,
             events := [Event.fb_get (some f1), Event.fb_return f1],
             path := Path.skipped },
           r2,
           { st := { frame_count := 3, error_count := r2.st.error_count,
                     dropped_frames := size_inc r2.st.dropped_frames, res := r2.st.res },
             running := true,
             events := [Event.fb_get (some f3), Event.fb_return f3],
             path := Path.skipped },
           r4] ∧
      r2.path.forwarded = true ∧ r4.path.forwarded = true ∧
      r2.st.dropped_frames = 1 ∧ r4.st.dropped_frames = 2) ∧
    (stream_run StreamSession.init
      [{ fb := some f1, send := s1 }, { fb := some f2, send := s2 },
       { fb := some f3, send := s3 }, { fb := some f4, send := s4 }]).map
        (fun r => decide (r.path = Path.skipped)) = [true, false, true, false] ∧
    (stream_run StreamSession.init
      [{ fb := some f1, send := s1 }, { fb := some f2, send := s2 },
       { fb := some f3, send := s3 }, { fb := some f4, send := s4 }]).map
        (fun r => decide (r.path = Path.oversize)) = [false, false, false, false] := by
  have h := four_captures_from_init f1 f2 f3 f4 s1 s2 s3 s4 (by omega) (by omega) hall
  have hst := four_captures_steps f1 f2 f3 f4 s1 s2 s3 s4 (by omega) (by omega) hall
  have hmax : max_frame_size StreamSession.init = 25 * 1024 := rfl
  have hnot : ∀ p : Path, p.forwarded = true → p ≠ Path.skipped ∧ p ≠ Path.oversize := by
    intro p hp
    cases p <;> simp_all [Path.forwarded]
  refine ⟨rfl, rfl, h, ?_, by rw [hmax]; omega, by rw [hmax]; omega, hst, ?_, ?_⟩
  · rw [forwarded_count_eq, h]
    decide
  · obtain ⟨r2, r4, hrun, hf2, hf4, _, _⟩ := hst
    rw [hrun]
    simp [(hnot _ hf2).1, (hnot _ hf4).1]
  · obtain ⟨r2, r4, hrun, hf2, hf4, _, _⟩ := hst
    rw [hrun]
    simp [(hnot _ hf2).2, (hnot _ hf4).2]

/-- C6 as amended, at the scenario itself with every write succeeding: the frames counted 1
and 3 take the skip path, none takes the oversize path, and two are forwarded. -/
theorem C6_two_frames_forwarded_witness :
    (stream_run StreamSession.init scenario_inputs).map (fun r => r.path.forwarded)
      = [false, true, false, true] ∧
    forwarded_count (stream_run StreamSession.init scenario_inputs) = 2 ∧
    (frame_of_size (30 * 1024)).len > max_frame_size StreamSession.init ∧
    (stream_run StreamSession.init scenario_inputs).map
        (fun r => decide (r.path = Path.skipped)) = [true, false, true, false] ∧
    (stream_run StreamSession.init scenario_inputs).map
        (fun r => decide (r.path = Path.oversize)) = [false, false, false, false] :=
  have hlen : ∀ n, (frame_of_size n).len = n := fun n => by
    simp [frame_of_size, camera_fb_t.len]
  have h := C6_two_frames_forwarded (frame_of_size (10 * 1024)) (frame_of_size (10 * 1024))
    (frame_of_size (30 * 1024)) (frame_of_size (10 * 1024)) send_ok send_ok send_ok send_ok
    (hlen _) (hlen _) (hlen _) (hlen _)
    (stream_run_length_of scenario_inputs StreamSession.init (by
      intro i hi
      simp only [scenario_inputs, List.mem_cons, List.mem_singleton, List.not_mem_nil,
        or_false] at hi
      rcases hi with h | h | h | h <;> subst h <;> exact ⟨by decide, by decide⟩))
  ⟨h.2.2.1, h.2.2.2.1, h.2.2.2.2.2.1, h.2.2.2.2.2.2.2.1, h.2.2.2.2.2.2.2.2⟩

/-- C7 as stated fails on the code: at error count 1, which lies strictly between 0 and
max_errors, the ceiling is the baseline 25 KB and not a smaller one. -/
theorem C7_ceiling_not_tightened_at_one :
    0 < (session_with_errors 1).error_count ∧
    (session_with_errors 1).error_count < max_errors ∧
    max_frame_size (session_with_errors 1) = 25 * 1024 ∧
    ¬ (max_frame_size (session_with_errors 1) < max_frame_size (session_with_errors 0)) := by
  decide

/-- C7 as amended: for an error count e with 0 < e < max_errors the ceiling is tightened only
once e exceeds 2. For e = 1 and e = 2 it is the baseline 25 * 1024 bytes; for e = 3 and e = 4
it is 15 * 1024 bytes, strictly below the ceiling of any session at e = 0. -/
theorem C7_ceiling_tightened_above_two (s s0 : StreamSession)
    (h1 : 0 < s.error_count) (_h2 : s.error_count < max_errors)
    (h0 : s0.error_count = 0) :
    max_frame_size s0 = 25 * 1024 ∧
    (s.error_count ≤ 2 → max_frame_size s = max_frame_size s0) ∧
    (2 < s.error_count → max_frame_size s = 15 * 1024 ∧
      max_frame_size s < max_frame_size s0) := by
  have hm : max_errors = 5 := rfl
  have hb : max_frame_size s0 = 25 * 1024 := by simp [max_frame_size, h0]
  refine ⟨hb, ?_, ?_⟩
  · intro h
    rw [hb]
    simp only [max_frame_size]
    rw [if_neg (by omega)]
  · intro h
    have : max_frame_size s = 15 * 1024 := by
      simp only [max_frame_size]
      rw [if_pos h]
    rw [this, hb]
    exact ⟨rfl, by decide⟩

/-- C7 as amended, at error count 3. -/
theorem C7_ceiling_tightened_above_two_witness :
    max_frame_size (session_with_errors 3) = 15 * 1024 ∧
    max_frame_size (session_with_errors 3) < max_frame_size StreamSession.init :=
  (C7_ceiling_tightened_above_two (session_with_errors 3) StreamSession.init
    (by decide) (by decide) rfl).2.2 (by decide)

/-- C8 as stated fails on the code: in the queued handler a boundary write that fails with
ESP_FAIL, which is not a disconnect code, ends the session loop. -/
theorem C8_queued_handler_stops_on_any_failure :
    ESP_FAIL ≠ ESP_OK ∧ is_disconnect ESP_FAIL = false ∧
    (ws_stream_iteration full_queue 0 send_fail).events
      = [Event.queue_receive (some (heap_copy small_fb)),
         Event.send_chunk (cstr STREAM_BOUNDARY) ESP_FAIL,
         Event.free (heap_copy small_fb)] ∧
    (ws_stream_iteration full_queue 0 send_fail).running = false := by
  decide

/-- C8 as amended: in the direct handler a write that fails with a code other than the two
disconnect codes is counted (the error counter is incremented, and restarts at 0 when it
reaches max_errors) and the loop goes on with the next iteration; in the queued handler,
which has no error counter, every failed write ends the session loop whatever its code. -/
theorem C8_transient_failure_continues_direct_only
    (s : StreamSession) (fb : Option camera_fb_t) (send : Nat → esp_err_t)
    (dat : List UInt8) (c : esp_err_t)
    (q : Queue) (frames_sent : Nat) (wsend : Nat → esp_err_t)
    (wdat : List UInt8) (wc : esp_err_t)
    (hmem : Event.send_chunk dat c ∈ (stream_iteration s fb send).events)
    (hc : c ≠ ESP_OK) (hd : is_disconnect c = false)
    (hwmem : Event.send_chunk wdat wc ∈ (ws_stream_iteration q frames_sent wsend).events)
    (hwc : wc ≠ ESP_OK) :
    ((stream_iteration s fb send).running = true ∧
      (stream_iteration s fb send).st.error_count
        = (if size_inc s.error_count ≥ max_errors then 0 else size_inc s.error_count) ∧
      (∀ rest : List IterInput, stream_run s ({ fb := fb, send := send } :: rest)
        = stream_iteration s fb send :: stream_run (stream_iteration s fb send).st rest)) ∧
    (ws_stream_iteration q frames_sent wsend).running = false := by
  obtain ⟨hwf, hres⟩ := stream_iteration_failed_send s fb send dat c hmem hc
  have hrun : (stream_iteration s fb send).running = true := by
    by_contra hn
    have hn2 : (stream_iteration s fb send).running = false := by simpa using hn
    have := (stream_iteration_break s fb send hn2).2
    rw [hres, hd] at this
    exact absurd this (by decide)
  refine ⟨⟨hrun, (stream_iteration_failed s fb send hwf hrun).1, ?_⟩,
    ws_stream_iteration_failed_send q frames_sent wsend wdat wc hwmem hwc⟩
  intro rest
  simp [stream_run, hrun]

/-- C8 as amended, at a concrete input: the boundary write fails with ESP_FAIL in both
handlers; the direct handler counts the error and goes on, the queued handler stops. -/
theorem C8_transient_failure_continues_direct_only_witness :
    ((stream_iteration session_after_one (some small_fb) send_fail).running = true ∧
      (stream_iteration session_after_one (some small_fb) send_fail).st.error_count
        = (if size_inc session_after_one.error_count ≥ max_errors then 0
           else size_inc session_after_one.error_count) ∧
      (∀ rest : List IterInput,
        stream_run session_after_one ({ fb := some small_fb, send := send_fail } :: rest)
        = stream_iteration session_after_one (some small_fb) send_fail
          :: stream_run (stream_iteration session_after_one (some small_fb) send_fail).st
              rest)) ∧
    (ws_stream_iteration full_queue 0 send_fail).running = false :=
  C8_transient_failure_continues_direct_only session_after_one (some small_fb) send_fail
    (cstr STREAM_BOUNDARY) ESP_FAIL full_queue 0 send_fail (cstr STREAM_BOUNDARY) ESP_FAIL
    (by decide) (by decide) (by decide) (by decide) (by decide)

/-- C9: in the direct handler the skip ratio and the size ceiling depend on the error count
alone: two sessions with the same error count use the same skip ratio and the same ceiling
whatever their other locals, and these are the values that decide whether a frame reaches
the encoder; at error count 0 they are 2 and 25 * 1024 bytes. -/
theorem C9_skip_and_ceiling_depend_on_error_count (s1 s2 : StreamSession)
    (h : s1.error_count = s2.error_count) :
    skip_frames s1 = skip_frames s2 ∧
    max_frame_size s1 = max_frame_size s2 ∧
    (∀ (fb : camera_fb_t) (send : Nat → esp_err_t),
      (stream_iteration s1 (some fb) send).path.forwarded = true ↔
        size_inc s1.frame_count % skip_frames s2 = 0 ∧ fb.len ≤ max_frame_size s2) ∧
    (s1.error_count = 0 → skip_frames s1 = 2 ∧ max_frame_size s1 = 25 * 1024) := by
  have hs : skip_frames s1 = skip_frames s2 := by simp [skip_frames, h]
  have hm : max_frame_size s1 = max_frame_size s2 := by simp [max_frame_size, h]
  refine ⟨hs, hm, ?_, ?_⟩
  · intro fb send
    rw [← hs, ← hm]
    exact stream_iteration_forwarded_iff s1 fb send
  · intro h0
    simp [skip_frames, max_frame_size, h0]

/-- C9 at two sessions with error count 3 and different frame counts, drop counts and last
results. -/
theorem C9_skip_and_ceiling_depend_on_error_count_witness :
    skip_frames { frame_count := 7, error_count := 3, dropped_frames := 4, res := ESP_OK }
      = skip_frames
          { frame_count := 120, error_count := 3, dropped_frames := 110, res := ESP_FAIL } ∧
    max_frame_size { frame_count := 7, error_count := 3, dropped_frames := 4, res := ESP_OK }
      = max_frame_size
          { frame_count := 120, error_count := 3, dropped_frames := 110, res := ESP_FAIL } :=
  have h := C9_skip_and_ceiling_depend_on_error_count
    { frame_count := 7, error_count := 3, dropped_frames := 4, res := ESP_OK }
    { frame_count := 120, error_count := 3, dropped_frames := 110, res := ESP_FAIL } rfl
  ⟨h.1, h.2.1⟩

/-- C10: in the direct handler, after every fully successful frame send the error counter is
0 whatever it was before, the delay that ends the iteration is the baseline 50 ms, and no run
of the handler ever takes the 200 ms delay. -/
theorem C10_delay_after_success_is_baseline (s : StreamSession) (fb : Option camera_fb_t)
    (send : Nat → esp_err_t) (h : (stream_iteration s fb send).path = Path.sent) :
    (stream_iteration s fb send).st.error_count = 0 ∧
    frame_delay (stream_iteration s fb send).st = 50 ∧
    (stream_iteration s fb send).events.getLast? = some (Event.vTaskDelay 50) ∧
    (∀ (s0 : StreamSession) (inputs : List IterInput),
      Event.vTaskDelay 200 ∉ trace (stream_run s0 inputs)) := by
  obtain ⟨h1, h2⟩ := stream_iteration_after_sent s fb send h
  refine ⟨h1, by simp [frame_delay, h1], h2, fun s0 inputs => stream_run_no_delay_200 inputs s0⟩

/-- C10 at a session with three errors counted: a successful send resets the counter and is
followed by the 50 ms delay. -/
theorem C10_delay_after_success_is_baseline_witness :
    (stream_iteration session_three_errors (some small_fb) send_ok).st.error_count = 0 ∧
    frame_delay (stream_iteration session_three_errors (some small_fb) send_ok).st = 50 ∧
    (stream_iteration session_three_errors (some small_fb) send_ok).events.getLast?
      = some (Event.vTaskDelay 50) :=
  have h := C10_delay_after_success_is_baseline session_three_errors (some small_fb) send_ok
    (by rw [stream_iteration_sent session_three_errors small_fb send_ok (by decide)
      (by decide) (fun _ => rfl)])
  ⟨h.1, h.2.1, h.2.2.1⟩

/-! ## The wire format of one part -/

/-- Once the boundary is written for a frame, the header chunk of the direct handler is the
formatted part header. -/
theorem stream_iteration_header_chunk (s : StreamSession) (fb : camera_fb_t)
    (send : Nat → esp_err_t)
    (hskip : size_inc s.frame_count % skip_frames s = 0)
    (hsize : fb.len ≤ max_frame_size s) (h0 : send 0 = ESP_OK) :
    Event.send_chunk (STREAM_PART fb.len) (send 1)
      ∈ (stream_iteration s (some fb) send).events := by
  have hsz : ¬ fb.len > max_frame_size s := by omega
  simp only [stream_iteration, count_error, skip_frames_frame_count,
    max_frame_size_frame_count, snprintf_part_exact]
  split_ifs <;> simp_all

/-- Once the boundary is written for a dequeued frame, the header chunk of the queued handler
is the formatted part header. -/
theorem ws_stream_iteration_header_chunk (q : Queue) (fd : frame_data_t)
    (rest : List frame_data_t) (frames_sent : Nat) (send : Nat → esp_err_t)
    (hq : q.items = fd :: rest) (h0 : send 0 = ESP_OK) :
    Event.send_chunk (STREAM_PART fd.len) (send 1)
      ∈ (ws_stream_iteration q frames_sent send).events := by
  simp only [ws_stream_iteration, xQueueReceive, hq, snprintf_part_exact]
  split_ifs <;> simp_all

/-- C16: for every frame length n below 2^32 the formatted part header is the fixed text
around the decimal digits of n, at most 56 bytes long and so shorter than the 128-byte
part_buf; snprintf stores it untruncated and returns the number of header bytes in the buffer,
and that header is the chunk both handlers write after the boundary. -/
theorem C16_part_header_fits_part_buf (n : Nat) (h : n < SIZE_MOD) :
    STREAM_PART n
      = cstr "Content-Type: image/jpeg\r\nContent-Length: " ++ decimal n ++ cstr "\r\n\r\n" ∧
    (STREAM_PART n).length ≤ 56 ∧
    (STREAM_PART n).length < 128 ∧
    (snprintf_part 128 n).1 = STREAM_PART n ∧
    (snprintf_part 128 n).2 = (snprintf_part 128 n).1.length ∧
    (snprintf_part 128 n).1.take (snprintf_part 128 n).2 = STREAM_PART n ∧
    (∀ (s : StreamSession) (fb : camera_fb_t) (send : Nat → esp_err_t),
      fb.len = n → size_inc s.frame_count % skip_frames s = 0 → fb.len ≤ max_frame_size s →
      send 0 = ESP_OK →
      Event.send_chunk (STREAM_PART n) (send 1)
        ∈ (stream_iteration s (some fb) send).events) ∧
    (∀ (q : Queue) (fd : frame_data_t) (rest : List frame_data_t) (frames_sent : Nat)
        (send : Nat → esp_err_t),
      fd.len = n → q.items = fd :: rest → send 0 = ESP_OK →
      Event.send_chunk (STREAM_PART n) (send 1)
        ∈ (ws_stream_iteration q frames_sent send).events) := by
  have hlen := STREAM_PART_length n
  have h10 := fmt_u_length n
  have hstore : (snprintf_part 128 n).1 = STREAM_PART n := by
    simp only [snprintf_part]
    exact List.take_of_length_le (by omega)
  refine ⟨?_, by omega, by omega, hstore, ?_, snprintf_part_exact n, ?_, ?_⟩
  · simp [STREAM_PART, fmt_u_of_lt n h]
  · rw [hstore]
    rfl
  · intro s fb send hn hskip hsize h0
    rw [← hn]
    exact stream_iteration_header_chunk s fb send hskip hsize h0
  · intro q fd rest frames_sent send hn hq h0
    rw [← hn]
    exact ws_stream_iteration_header_chunk q fd rest frames_sent send hq h0

/-- C16 at the largest frame length, 4294967295: the header has ten digits and is exactly
56 bytes long. -/
theorem C16_part_header_fits_part_buf_witness :
    (STREAM_PART SIZE_MAX).length ≤ 56 ∧
    (STREAM_PART SIZE_MAX).length < 128 ∧
    (snprintf_part 128 SIZE_MAX).1 = STREAM_PART SIZE_MAX ∧
    (snprintf_part 128 SIZE_MAX).2 = (snprintf_part 128 SIZE_MAX).1.length :=
  have h := C16_part_header_fits_part_buf SIZE_MAX (by decide)
  ⟨h.2.1, h.2.2.1, h.2.2.2.1, h.2.2.2.2.1⟩

/-- The bound of 56 bytes is reached at the largest frame length. -/
theorem STREAM_PART_length_at_size_max : (STREAM_PART SIZE_MAX).length = 56 := by
  decide

/-- C11: for a frame of n bytes sent with every write succeeding, the bytes written for the
part are, in this order and with nothing in between, the boundary line, the part header
carrying n in decimal, and the n frame bytes, in the direct and in the queued handler; the
token of the boundary line is the one declared in the content type that each handler sets on
the response. -/
theorem C11_wire_format_of_a_part
    (s : StreamSession) (fb : camera_fb_t) (q : Queue) (fbq : camera_fb_t)
    (rest : List frame_data_t) (frames_sent : Nat) (send : Nat → esp_err_t)
    (hskip : size_inc s.frame_count % skip_frames s = 0)
    (hsize : fb.len ≤ max_frame_size s)
    (hsizeq : fbq.len ≤ 40 * 1024)
    (hq : q.items = heap_copy fbq :: rest)
    (hsend : ∀ k, send k = ESP_OK) :
    (chunks_written (stream_iteration s (some fb) send).events).flatten
      = cstr "\r\n--123456789000000000000987654321\r\n"
        ++ (cstr "Content-Type: image/jpeg\r\nContent-Length: " ++ decimal fb.len
            ++ cstr "\r\n\r\n")
        ++ fb.buf ∧
    (chunks_written (ws_stream_iteration q frames_sent send).events).flatten
      = cstr "\r\n--123456789000000000000987654321\r\n"
        ++ (cstr "Content-Type: image/jpeg\r\nContent-Length: " ++ decimal fbq.len
            ++ cstr "\r\n\r\n")
        ++ fbq.buf ∧
    STREAM_BOUNDARY = "\r\n--" ++ BOUNDARY_TOKEN ++ "\r\n" ∧
    STREAM_CONTENT_TYPE = "multipart/x-mixed-replace;boundary=" ++ BOUNDARY_TOKEN ∧
    (stream_handler_entry ESP_OK).map (fun r => r.content_type) = some STREAM_CONTENT_TYPE ∧
    (ws_stream_handler_entry ESP_OK).map (fun r => r.content_type)
      = some STREAM_CONTENT_TYPE := by
  have hb : cstr STREAM_BOUNDARY = cstr "\r\n--123456789000000000000987654321\r\n" := rfl
  refine ⟨?_, ?_, by decide, by decide, by decide, by decide⟩
  · obtain ⟨_, _, _, h4⟩ := payload_loop_ok send fb (fb.len - 0) 0 2 ESP_OK rfl
      (Nat.zero_le _) (fun j _ => hsend j) rfl
    have hlt : fb.len < SIZE_MOD := by
      have := max_frame_size_le s
      simp only [SIZE_MOD]
      omega
    have hc : chunks_written (stream_iteration s (some fb) send).events
        = cstr STREAM_BOUNDARY :: STREAM_PART fb.len
          :: chunks_written (payload_loop send fb 0 2 ESP_OK).events := by
      rw [stream_iteration_sent s fb send hskip hsize hsend]
      simp [chunks_written, chunks_written_append]
    rw [hc, List.flatten_cons, List.flatten_cons, h4, List.drop_zero, hb]
    simp [STREAM_PART, fmt_u_of_lt fb.len hlt]
  · have hfd : (heap_copy fbq).len = (heap_copy fbq).data.length := by
      simp [heap_copy, camera_fb_t.len]
    obtain ⟨_, _, h4⟩ := ws_payload_loop_ok send (heap_copy fbq) hfd
      ((heap_copy fbq).len - 0) 0 2 ESP_OK rfl (Nat.zero_le _) (fun j _ => hsend j) rfl
    have hlt : fbq.len < SIZE_MOD := by
      simp only [SIZE_MOD]
      omega
    have hl : (heap_copy fbq).len = fbq.len := rfl
    have hd : (heap_copy fbq).data = fbq.buf := by
      simp [heap_copy, camera_fb_t.len]
    have hc : chunks_written (ws_stream_iteration q frames_sent send).events
        = cstr STREAM_BOUNDARY :: STREAM_PART fbq.len
          :: chunks_written (ws_payload_loop send (heap_copy fbq) 0 2 ESP_OK).events := by
      rw [ws_stream_iteration_sent q (heap_copy fbq) rest frames_sent send hq hfd hsend]
      simp [chunks_written, chunks_written_append, hl]
    rw [hc, List.flatten_cons, List.flatten_cons, h4, List.drop_zero, hb, hd]
    simp [STREAM_PART, fmt_u_of_lt fbq.len hlt]

/-- C11 at a three-byte frame: the wire bytes of the part in the direct handler and at the
head of the queue. -/
theorem C11_wire_format_of_a_part_witness :
    (chunks_written
        (stream_iteration session_after_one (some small_fb) send_ok).events).flatten
      = cstr "\r\n--123456789000000000000987654321\r\n"
        ++ (cstr "Content-Type: image/jpeg\r\nContent-Length: " ++ decimal 3
            ++ cstr "\r\n\r\n")
        ++ [255, 216, 255] ∧
    (chunks_written
        (ws_stream_iteration { capacity := 5, items := [heap_copy small_fb] } 0
          send_ok).events).flatten
      = cstr "\r\n--123456789000000000000987654321\r\n"
        ++ (cstr "Content-Type: image/jpeg\r\nContent-Length: " ++ decimal 3
            ++ cstr "\r\n\r\n")
        ++ [255, 216, 255] :=
  have h := C11_wire_format_of_a_part session_after_one small_fb
    { capacity := 5, items := [heap_copy small_fb] } small_fb [] 0 send_ok
    (by decide) (by decide) (by decide) rfl (fun _ => rfl)
  ⟨h.1, h.2.1⟩

/-! ## The sub-chunks of the payload -/

theorem dropLast_cons_forall {α : Type} (P : α → Prop) (a : α) (l : List α)
    (ha : l ≠ [] → P a) (hl : ∀ x ∈ l.dropLast, P x) :
    ∀ x ∈ (a :: l).dropLast, P x := by
  cases l with
  | nil => simp
  | cons b t =>
    intro x hx
    rw [List.dropLast_cons₂, List.mem_cons] at hx
    rcases hx with h | h
    · rw [h]
      exact ha (by simp)
    · exact hl x h

/-- The sub-chunks written by the payload loop of the direct handler when every write
succeeds: their number, their sizes, and the size of all but the last. -/
theorem payload_loop_chunks (send : Nat → esp_err_t) (fb : camera_fb_t) :
    ∀ (d sent k : Nat) (res : esp_err_t), fb.len - sent = d → sent ≤ fb.len →
      (∀ j, k ≤ j → send j = ESP_OK) →
      (chunks_written (payload_loop send fb sent k res).events).length
        = (fb.len - sent + chunk_size - 1) / chunk_size ∧
      (∀ ch ∈ chunks_written (payload_loop send fb sent k res).events,
        1 ≤ ch.length ∧ ch.length ≤ chunk_size) ∧
      (∀ ch ∈ (chunks_written (payload_loop send fb sent k res).events).dropLast,
        ch.length = chunk_size) := by
  intro d
  induction d using Nat.strong_induction_on with
  | _ d ih =>
    intro sent k res hd hle hsend
    have hlen : fb.buf.length = fb.len := rfl
    rw [payload_loop]
    by_cases hlt : sent < fb.len
    · have hk : send k = ESP_OK := hsend k (Nat.le_refl k)
      simp only [hlt, if_true, hk, ne_eq, not_true_eq_false, if_false, chunks_written]
      by_cases hgt : fb.len - sent > chunk_size
      · simp only [hgt, if_true]
        obtain ⟨h1, h2, h3⟩ := ih (fb.len - (sent + chunk_size))
          (by simp only [chunk_size] at hgt ⊢; omega)
          (sent + chunk_size) (k + 1) ESP_OK rfl
          (by simp only [chunk_size] at hgt ⊢; omega) (fun j hj => hsend j (by omega))
        have hfirst : ((fb.buf.drop sent).take chunk_size).length = chunk_size := by
          rw [List.length_take, List.length_drop, hlen]
          omega
        refine ⟨?_, ?_, ?_⟩
        · rw [List.length_cons, h1]
          simp only [chunk_size] at hgt ⊢
          omega
        · intro ch hch
          rw [List.mem_cons] at hch
          rcases hch with h | h
          · rw [h, hfirst]
            simp only [chunk_size]
            omega
          · exact h2 ch h
        · exact dropLast_cons_forall (fun ch : List UInt8 => ch.length = chunk_size) _ _
            (fun _ => hfirst) h3
      · simp only [hgt, if_false]
        have hs : sent + (fb.len - sent) = fb.len := by omega
        rw [hs]
        obtain ⟨h1, _, _⟩ := ih (fb.len - fb.len) (by omega) fb.len (k + 1) ESP_OK rfl
          (Nat.le_refl _) (fun j hj => hsend j (by omega))
        have hfirst : ((fb.buf.drop sent).take (fb.len - sent)).length = fb.len - sent := by
          rw [List.length_take, List.length_drop, hlen]
          omega
        have hnil : chunks_written (payload_loop send fb fb.len (k + 1) ESP_OK).events
            = [] := by
          apply List.eq_nil_of_length_eq_zero
          rw [h1]
          simp only [chunk_size]
          omega
        rw [hnil]
        refine ⟨?_, ?_, ?_⟩
        · simp only [chunk_size, List.length_singleton] at hgt ⊢
          omega
        · intro ch hch
          rw [List.mem_singleton] at hch
          rw [hch, hfirst]
          omega
        · simp
    · simp only [hlt, if_false, chunks_written]
      refine ⟨?_, ?_, ?_⟩
      · simp only [List.length_nil, chunk_size]
        omega
      · simp
      · simp

/-- The sub-chunks written by the payload loop of the queued handler when every write
succeeds: their number, their sizes, and the size of all but the last. -/
theorem ws_payload_loop_chunks (send : Nat → esp_err_t) (fd : frame_data_t)
    (hfd : fd.len = fd.data.length) :
    ∀ (d sent k : Nat) (res : esp_err_t), fd.len - sent = d → sent ≤ fd.len →
      (∀ j, k ≤ j → send j = ESP_OK) →
      (chunks_written (ws_payload_loop send fd sent k res).events).length
        = (fd.len - sent + ws_chunk_size - 1) / ws_chunk_size ∧
      (∀ ch ∈ chunks_written (ws_payload_loop send fd sent k res).events,
        1 ≤ ch.length ∧ ch.length ≤ ws_chunk_size) ∧
      (∀ ch ∈ (chunks_written (ws_payload_loop send fd sent k res).events).dropLast,
        ch.length = ws_chunk_size) := by
  intro d
  induction d using Nat.strong_induction_on with
  | _ d ih =>
    intro sent k res hd hle hsend
    have hlen : fd.data.length = fd.len := hfd.symm
    rw [ws_payload_loop]
    by_cases hlt : sent < fd.len
    · have hk : send k = ESP_OK := hsend k (Nat.le_refl k)
      simp only [hlt, if_true, hk, ne_eq, not_true_eq_false, if_false, chunks_written]
      by_cases hgt : fd.len - sent > ws_chunk_size
      · simp only [hgt, if_true]
        obtain ⟨h1, h2, h3⟩ := ih (fd.len - (sent + ws_chunk_size))
          (by simp only [ws_chunk_size] at hgt ⊢; omega)
          (sent + ws_chunk_size) (k + 1) ESP_OK rfl
          (by simp only [ws_chunk_size] at hgt ⊢; omega) (fun j hj => hsend j (by omega))
        have hfirst : ((fd.data.drop sent).take ws_chunk_size).length = ws_chunk_size := by
          rw [List.length_take, List.length_drop, hlen]
          omega
        refine ⟨?_, ?_, ?_⟩
        · rw [List.length_cons, h1]
          simp only [ws_chunk_size] at hgt ⊢
          omega
        · intro ch hch
          rw [List.mem_cons] at hch
          rcases hch with h | h
          · rw [h, hfirst]
            simp only [ws_chunk_size]
            omega
          · exact h2 ch h
        · exact dropLast_cons_forall (fun ch : List UInt8 => ch.length = ws_chunk_size) _ _
            (fun _ => hfirst) h3
      · simp only [hgt, if_false]
        have hs : sent + (fd.len - sent) = fd.len := by omega
        rw [hs]
        obtain ⟨h1, _, _⟩ := ih (fd.len - fd.len) (by omega) fd.len (k + 1) ESP_OK rfl
          (Nat.le_refl _) (fun j hj => hsend j (by omega))
        have hfirst : ((fd.data.drop sent).take (fd.len - sent)).length = fd.len - sent := by
          rw [List.length_take, List.length_drop, hlen]
          omega
        have hnil : chunks_written (ws_payload_loop send fd fd.len (k + 1) ESP_OK).events
            = [] := by
          apply List.eq_nil_of_length_eq_zero
          rw [h1]
          simp only [ws_chunk_size]
          omega
        rw [hnil]
        refine ⟨?_, ?_, ?_⟩
        · simp only [ws_chunk_size, List.length_singleton] at hgt ⊢
          omega
        · intro ch hch
          rw [List.mem_singleton] at hch
          rw [hch, hfirst]
          omega
        · simp
    · simp only [hlt, if_false, chunks_written]
      refine ⟨?_, ?_, ?_⟩
      · simp only [List.length_nil, ws_chunk_size]
        omega
      · simp
      · simp

/-- Whatever the writes return, no sub-chunk written by the payload loop of the direct handler
is empty or longer than chunk_size. -/
theorem payload_loop_chunk_sizes (send : Nat → esp_err_t) (fb : camera_fb_t) :
    ∀ (d sent k : Nat) (res : esp_err_t), fb.len - sent = d →
      ∀ ch ∈ chunks_written (payload_loop send fb sent k res).events,
        1 ≤ ch.length ∧ ch.length ≤ chunk_size := by
  intro d
  induction d using Nat.strong_induction_on with
  | _ d ih =>
    intro sent k res hd
    have hlen : fb.buf.length = fb.len := rfl
    rw [payload_loop]
    by_cases hlt : sent < fb.len
    · have hfirst : 1 ≤ ((fb.buf.drop sent).take
          (if fb.len - sent > chunk_size then chunk_size else fb.len - sent)).length ∧
          ((fb.buf.drop sent).take
          (if fb.len - sent > chunk_size then chunk_size else fb.len - sent)).length
            ≤ chunk_size := by
        rw [List.length_take, List.length_drop, hlen]
        simp only [chunk_size]
        split <;> omega
      have hpos : 0 < (if fb.len - sent > chunk_size then chunk_size
          else fb.len - sent) := by
        simp only [chunk_size]
        split <;> omega
      by_cases hk : send k = ESP_OK
      · simp only [hlt, if_true, hk, ne_eq, not_true_eq_false, if_false, chunks_written]
        intro ch hch
        rw [List.mem_cons] at hch
        rcases hch with h | h
        · rw [h]
          exact hfirst
        · exact ih _ (by omega) _ (k + 1) ESP_OK rfl ch h
      · simp only [hlt, if_true, hk, ne_eq, not_false_eq_true, ite_self, chunks_written]
        intro ch hch
        rw [List.mem_singleton] at hch
        rw [hch]
        exact hfirst
    · simp [hlt, chunks_written]

/-- Whatever the writes return, no sub-chunk written by the payload loop of the queued handler
is empty or longer than its ws_chunk_size. -/
theorem ws_payload_loop_chunk_sizes (send : Nat → esp_err_t) (fd : frame_data_t)
    (hfd : fd.len = fd.data.length) :
    ∀ (d sent k : Nat) (res : esp_err_t), fd.len - sent = d →
      ∀ ch ∈ chunks_written (ws_payload_loop send fd sent k res).events,
        1 ≤ ch.length ∧ ch.length ≤ ws_chunk_size := by
  intro d
  induction d using Nat.strong_induction_on with
  | _ d ih =>
    intro sent k res hd
    have hlen : fd.data.length = fd.len := hfd.symm
    rw [ws_payload_loop]
    by_cases hlt : sent < fd.len
    · have hfirst : 1 ≤ ((fd.data.drop sent).take
          (if fd.len - sent > ws_chunk_size then ws_chunk_size else fd.len - sent)).length ∧
          ((fd.data.drop sent).take
          (if fd.len - sent > ws_chunk_size then ws_chunk_size else fd.len - sent)).length
            ≤ ws_chunk_size := by
        rw [List.length_take, List.length_drop, hlen]
        simp only [ws_chunk_size]
        split <;> omega
      have hpos : 0 < (if fd.len - sent > ws_chunk_size then ws_chunk_size
          else fd.len - sent) := by
        simp only [ws_chunk_size]
        split <;> omega
      by_cases hk : send k = ESP_OK
      · simp only [hlt, if_true, hk, ne_eq, not_true_eq_false, if_false, chunks_written]
        intro ch hch
        rw [List.mem_cons] at hch
        rcases hch with h | h
        · rw [h]
          exact hfirst
        · exact ih _ (by omega) _ (k + 1) ESP_OK rfl ch h
      · simp only [hlt, if_true, hk, ne_eq, not_false_eq_true, chunks_written]
        intro ch hch
        rw [List.mem_singleton] at hch
        rw [hch]
        exact hfirst
    · simp [hlt, chunks_written]

theorem frame_of_size_len (n : Nat) : (frame_of_size n).len = n := by
  simp [frame_of_size, camera_fb_t.len]

theorem heap_copy_len (fb : camera_fb_t) : (heap_copy fb).len = (heap_copy fb).data.length := by
  simp [heap_copy, camera_fb_t.len]

/-- C13: the payload loop of each handler is a total function (it terminates for every frame
length), and when every write succeeds it runs to the end of the frame and writes exactly
ceil(n / c) sub-chunks, c = 2024 in the direct and c = 4096 in the queued handler: every
sub-chunk has between 1 and c bytes, every one but the last has exactly c bytes, and a frame
of length 0 gets no payload chunk. Whatever the writes return, no chunk written is empty. -/
theorem C13_payload_sub_chunks (fb : camera_fb_t) (fd : frame_data_t)
    (send : Nat → esp_err_t) (hfd : fd.len = fd.data.length)
    (hsend : ∀ k, send k = ESP_OK) :
    (chunk_size = 2024 ∧
      (payload_loop send fb 0 2 ESP_OK).send_failed = false ∧
      (payload_loop send fb 0 2 ESP_OK).sent = fb.len ∧
      (chunks_written (payload_loop send fb 0 2 ESP_OK).events).length
        = (fb.len + chunk_size - 1) / chunk_size ∧
      (∀ ch ∈ chunks_written (payload_loop send fb 0 2 ESP_OK).events,
        1 ≤ ch.length ∧ ch.length ≤ chunk_size) ∧
      (∀ ch ∈ (chunks_written (payload_loop send fb 0 2 ESP_OK).events).dropLast,
        ch.length = chunk_size) ∧
      (fb.len = 0 → chunks_written (payload_loop send fb 0 2 ESP_OK).events = [])) ∧
    (ws_chunk_size = 4096 ∧
      (ws_payload_loop send fd 0 2 ESP_OK).res = ESP_OK ∧
      (ws_payload_loop send fd 0 2 ESP_OK).sent = fd.len ∧
      (chunks_written (ws_payload_loop send fd 0 2 ESP_OK).events).length
        = (fd.len + ws_chunk_size - 1) / ws_chunk_size ∧
      (∀ ch ∈ chunks_written (ws_payload_loop send fd 0 2 ESP_OK).events,
        1 ≤ ch.length ∧ ch.length ≤ ws_chunk_size) ∧
      (∀ ch ∈ (chunks_written (ws_payload_loop send fd 0 2 ESP_OK).events).dropLast,
        ch.length = ws_chunk_size) ∧
      (fd.len = 0 → chunks_written (ws_payload_loop send fd 0 2 ESP_OK).events = [])) ∧
    (∀ (any_send : Nat → esp_err_t) (res : esp_err_t),
      (∀ ch ∈ chunks_written (payload_loop any_send fb 0 2 res).events, 1 ≤ ch.length) ∧
      (∀ ch ∈ chunks_written (ws_payload_loop any_send fd 0 2 res).events,
        1 ≤ ch.length)) := by
  obtain ⟨a1, a2, _, _⟩ := payload_loop_ok send fb (fb.len - 0) 0 2 ESP_OK rfl
    (Nat.zero_le _) (fun j _ => hsend j) rfl
  obtain ⟨b1, b2, b3⟩ := payload_loop_chunks send fb (fb.len - 0) 0 2 ESP_OK rfl
    (Nat.zero_le _) (fun j _ => hsend j)
  obtain ⟨c1, c2, _⟩ := ws_payload_loop_ok send fd hfd (fd.len - 0) 0 2 ESP_OK rfl
    (Nat.zero_le _) (fun j _ => hsend j) rfl
  obtain ⟨d1, d2, d3⟩ := ws_payload_loop_chunks send fd hfd (fd.len - 0) 0 2 ESP_OK rfl
    (Nat.zero_le _) (fun j _ => hsend j)
  rw [Nat.sub_zero] at b1 d1
  refine ⟨⟨rfl, a1, a2, b1, b2, b3, ?_⟩, ⟨rfl, c2, c1, d1, d2, d3, ?_⟩, ?_⟩
  · intro h0
    apply List.eq_nil_of_length_eq_zero
    rw [b1, h0]
    decide
  · intro h0
    apply List.eq_nil_of_length_eq_zero
    rw [d1, h0]
    decide
  · intro any_send res
    exact ⟨fun ch hch => (payload_loop_chunk_sizes any_send fb (fb.len - 0) 0 2 res rfl
        ch hch).1,
      fun ch hch => (ws_payload_loop_chunk_sizes any_send fd hfd (fd.len - 0) 0 2 res rfl
        ch hch).1⟩

/-- C13 at a frame of 5000 bytes: three sub-chunks in the direct handler, two in the queued
handler. -/
theorem C13_payload_sub_chunks_witness :
    (chunks_written (payload_loop send_ok (frame_of_size 5000) 0 2 ESP_OK).events).length
      = ((frame_of_size 5000).len + chunk_size - 1) / chunk_size ∧
    ((frame_of_size 5000).len + chunk_size - 1) / chunk_size = 3 ∧
    (chunks_written
        (ws_payload_loop send_ok (heap_copy (frame_of_size 5000)) 0 2 ESP_OK).events).length
      = ((heap_copy (frame_of_size 5000)).len + ws_chunk_size - 1) / ws_chunk_size ∧
    ((heap_copy (frame_of_size 5000)).len + ws_chunk_size - 1) / ws_chunk_size = 2 :=
  have h := C13_payload_sub_chunks (frame_of_size 5000) (heap_copy (frame_of_size 5000))
    send_ok (heap_copy_len _) (fun _ => rfl)
  have hl : (heap_copy (frame_of_size 5000)).len = (frame_of_size 5000).len := rfl
  ⟨h.1.2.2.2.1, by rw [frame_of_size_len]; decide,
    h.2.1.2.2.2.1, by rw [hl, frame_of_size_len]; decide⟩

/-! ## The filters, the drop counter and the frame counter -/

/-- The size filter: a frame that passes the skip filter and exceeds the ceiling is returned
to the driver and counted as dropped; nothing is written. -/
theorem stream_iteration_oversize (s : StreamSession) (fb : camera_fb_t)
    (send : Nat → esp_err_t) (hskip : size_inc s.frame_count % skip_frames s = 0)
    (hsize : fb.len > max_frame_size s) :
    stream_iteration s (some fb) send =
      { st := { frame_count := size_inc s.frame_count, error_count := s.error_count,
                dropped_frames := size_inc s.dropped_frames, res := s.res },
        running := true,
        events := [Event.fb_get (some fb), Event.fb_return fb],
        path := Path.oversize } := by
  simp [stream_iteration, skip_frames_frame_count, max_frame_size_frame_count, hskip, hsize]

/-- The frame counter of the handler is the number of frames captured so far in the run,
as a size_t. -/
theorem stream_run_frame_count (inputs : List IterInput) :
    ∀ (s : StreamSession),
      (final_session s (stream_run s inputs)).frame_count % SIZE_MOD
        = (s.frame_count + (trace (stream_run s inputs)).countP is_fb_acquire)
          % SIZE_MOD := by
  induction inputs with
  | nil => intro s; simp [stream_run, final_session, trace]
  | cons i rest ih =>
    intro s
    have hstep : (stream_iteration s i.fb i.send).st.frame_count % SIZE_MOD
        = (s.frame_count + (stream_iteration s i.fb i.send).events.countP is_fb_acquire)
          % SIZE_MOD := by
      cases hfb : i.fb with
      | none => simp [stream_iteration, is_fb_acquire, List.countP_cons]
      | some fb =>
        rw [stream_iteration_frame_count,
          stream_iteration_countP is_fb_acquire s fb i.send (fun _ _ => rfl) (fun _ => rfl)]
        simp [is_fb_acquire, size_inc]
    simp only [stream_run]
    rw [final_session_cons, trace_cons, List.countP_append]
    split_ifs
    · rw [ih, ← Nat.add_assoc, Nat.add_mod, hstep, ← Nat.add_mod]
    · simp only [final_session, List.getLast?_nil, trace, List.map_nil, List.flatten_nil,
        List.countP_nil, Nat.add_zero]
      exact hstep

theorem stream_run_frame_count_lt (inputs : List IterInput) :
    ∀ (s : StreamSession), s.frame_count < SIZE_MOD →
      (final_session s (stream_run s inputs)).frame_count < SIZE_MOD := by
  induction inputs with
  | nil => intro s h; simpa [stream_run, final_session] using h
  | cons i rest ih =>
    intro s h
    have hstep : (stream_iteration s i.fb i.send).st.frame_count < SIZE_MOD := by
      cases hfb : i.fb with
      | none => simpa [stream_iteration] using h
      | some fb =>
        rw [stream_iteration_frame_count]
        exact Nat.mod_lt _ (by decide)
    simp only [stream_run]
    rw [final_session_cons]
    split_ifs
    · exact ih _ hstep
    · simpa [final_session] using hstep

/-- C12: in the direct handler, with K = skip_frames and C = max_frame_size in force, a
captured frame gets a chunk write exactly when its capture count (frame_count after the
increment) is a multiple of K and its length is at most C. The skip filter comes first: a
frame whose count is not a multiple of K is dropped whatever its length. A frame that fails
either filter has nothing written and dropped_frames incremented once; a frame that passes
both leaves dropped_frames unchanged. The counters are size_t: the capture count is the number
of frames captured in the session and the increment is +1 as long as they stay below 2^32. -/
theorem C12_filters_decide_forwarding (s : StreamSession) (fb : camera_fb_t)
    (send : Nat → esp_err_t) :
    (stream_iteration s (some fb) send).st.frame_count = size_inc s.frame_count ∧
    ((∃ d c, Event.send_chunk d c ∈ (stream_iteration s (some fb) send).events) ↔
      size_inc s.frame_count % skip_frames s = 0 ∧ fb.len ≤ max_frame_size s) ∧
    (size_inc s.frame_count % skip_frames s ≠ 0 →
      (stream_iteration s (some fb) send).path = Path.skipped) ∧
    (size_inc s.frame_count % skip_frames s = 0 → fb.len > max_frame_size s →
      (stream_iteration s (some fb) send).path = Path.oversize) ∧
    (¬ (size_inc s.frame_count % skip_frames s = 0 ∧ fb.len ≤ max_frame_size s) →
      (stream_iteration s (some fb) send).events
        = [Event.fb_get (some fb), Event.fb_return fb] ∧
      chunks_written (stream_iteration s (some fb) send).events = [] ∧
      (stream_iteration s (some fb) send).st.dropped_frames = size_inc s.dropped_frames) ∧
    (size_inc s.frame_count % skip_frames s = 0 ∧ fb.len ≤ max_frame_size s →
      (stream_iteration s (some fb) send).st.dropped_frames = s.dropped_frames) ∧
    (s.frame_count + 1 < SIZE_MOD → size_inc s.frame_count = s.frame_count + 1) ∧
    (s.dropped_frames + 1 < SIZE_MOD → size_inc s.dropped_frames = s.dropped_frames + 1) ∧
    (∀ pre : List IterInput,
      (trace (stream_run StreamSession.init pre)).countP is_fb_acquire < SIZE_MOD →
      (final_session StreamSession.init (stream_run StreamSession.init pre)).frame_count
        = (trace (stream_run StreamSession.init pre)).countP is_fb_acquire) := by
  have hfail : ¬ (size_inc s.frame_count % skip_frames s = 0 ∧ fb.len ≤ max_frame_size s) →
      (stream_iteration s (some fb) send).events
        = [Event.fb_get (some fb), Event.fb_return fb] ∧
      chunks_written (stream_iteration s (some fb) send).events = [] ∧
      (stream_iteration s (some fb) send).st.dropped_frames
        = size_inc s.dropped_frames := by
    intro h
    by_cases hskip : size_inc s.frame_count % skip_frames s = 0
    · have hsize : fb.len > max_frame_size s := by
        by_contra hle
        exact h ⟨hskip, by omega⟩
      rw [stream_iteration_oversize s fb send hskip hsize]
      exact ⟨rfl, rfl, rfl⟩
    · rw [stream_iteration_skipped s fb send hskip]
      exact ⟨rfl, rfl, rfl⟩
  refine ⟨stream_iteration_frame_count s fb send, ⟨?_, ?_⟩, ?_, ?_, hfail, ?_,
    size_inc_of_lt _, size_inc_of_lt _, ?_⟩
  · rintro ⟨d, c, hmem⟩
    by_contra h
    rw [(hfail h).1] at hmem
    simp at hmem
  · rintro ⟨hskip, hsize⟩
    exact ⟨_, _, (stream_iteration_passed s fb send hskip hsize).1⟩
  · intro hskip
    rw [stream_iteration_skipped s fb send hskip]
  · intro hskip hsize
    rw [stream_iteration_oversize s fb send hskip hsize]
  · rintro ⟨hskip, hsize⟩
    exact (stream_iteration_passed s fb send hskip hsize).2
  · intro pre hlt
    have h1 := stream_run_frame_count pre StreamSession.init
    have h2 := stream_run_frame_count_lt pre StreamSession.init (by decide)
    rw [Nat.mod_eq_of_lt h2] at h1
    rw [h1]
    simp only [StreamSession.init, Nat.zero_add]
    exact Nat.mod_eq_of_lt hlt

/-- C14: when the wait of the queued handler for a frame times out, the iteration writes
exactly one chunk, the two bytes CR LF, and no boundary, header or payload; when that write
succeeds the loop goes on to the next iteration with the queue and the frame counter as they
were. -/
theorem C14_keep_alive_on_timeout (q : Queue) (frames_sent : Nat) (send : Nat → esp_err_t)
    (htimeout : (xQueueReceive q).2 = none) :
    (ws_stream_iteration q frames_sent send).events
      = [Event.queue_receive none, Event.send_chunk (cstr "\r\n") (send 0)] ∧
    chunks_written (ws_stream_iteration q frames_sent send).events = [cstr "\r\n"] ∧
    cstr "\r\n" = [13, 10] ∧
    (send 0 = ESP_OK →
      (ws_stream_iteration q frames_sent send).running = true ∧
      (ws_stream_iteration q frames_sent send).path = WsPath.keep_alive ∧
      (ws_stream_iteration q frames_sent send).queue = q ∧
      (ws_stream_iteration q frames_sent send).frames_sent = frames_sent) := by
  have hq : q.items = [] := by
    cases h : q.items with
    | nil => rfl
    | cons x xs => simp [xQueueReceive, h] at htimeout
  refine ⟨?_, ?_, by decide, ?_⟩
  · simp only [ws_stream_iteration, xQueueReceive, hq]
    split_ifs <;> rfl
  · simp only [ws_stream_iteration, xQueueReceive, hq]
    split_ifs <;> rfl
  · intro h0
    simp [ws_stream_iteration, xQueueReceive, hq, h0]

/-- C14 at the empty queue of a freshly started server, with the write succeeding. -/
theorem C14_keep_alive_on_timeout_witness :
    chunks_written (ws_stream_iteration (xQueueCreate 5) 0 send_ok).events = [cstr "\r\n"] ∧
    (ws_stream_iteration (xQueueCreate 5) 0 send_ok).running = true :=
  have h := C14_keep_alive_on_timeout (xQueueCreate 5) 0 send_ok rfl
  ⟨h.2.1, (h.2.2.2 rfl).1⟩

/-- One iteration keeps the error counter below max_errors. -/
theorem stream_iteration_error_count_lt (s : StreamSession) (fb : Option camera_fb_t)
    (send : Nat → esp_err_t) (h : s.error_count < max_errors) :
    (stream_iteration s fb send).st.error_count < max_errors := by
  have hm : max_errors = 5 := rfl
  have hinc : size_inc s.error_count = s.error_count + 1 :=
    size_inc_of_lt _ (by simp only [SIZE_MOD]; omega)
  cases fb with
  | none => simpa [stream_iteration] using h
  | some fb =>
    simp only [stream_iteration, count_error]
    split_ifs <;> simp_all <;> omega

theorem stream_run_error_count_lt (inputs : List IterInput) :
    ∀ (s : StreamSession), s.error_count < max_errors →
      (∀ r ∈ stream_run s inputs, r.st.error_count < max_errors) ∧
      (final_session s (stream_run s inputs)).error_count < max_errors := by
  induction inputs with
  | nil => intro s h; simpa [stream_run, final_session] using h
  | cons i rest ih =>
    intro s h
    have hstep := stream_iteration_error_count_lt s i.fb i.send h
    simp only [stream_run]
    rw [final_session_cons]
    split_ifs
    · obtain ⟨g1, g2⟩ := ih _ hstep
      refine ⟨?_, g2⟩
      intro r hr
      rw [List.mem_cons] at hr
      rcases hr with h1 | h1
      · rw [h1]
        exact hstep
      · exact g1 r h1
    · refine ⟨?_, by simpa [final_session] using hstep⟩
      intro r hr
      rw [List.mem_singleton] at hr
      rw [hr]
      exact hstep

/-- C15: in the direct handler, for every sequence of capture results and write outcomes, the
error counter is below max_errors = 5 at the start of every loop iteration, that is at loop
entry and after any number of iterations; an iteration started below 5 ends below 5, because
the failure that would bring the counter from 4 to 5 resets it to 0 before the iteration
ends; so the skip ratio and the ceiling are computed at error counts 0 to 4 only. -/
theorem C15_error_count_below_max_errors (pre : List IterInput) :
    max_errors = 5 ∧
    StreamSession.init.error_count = 0 ∧
    (final_session StreamSession.init (stream_run StreamSession.init pre)).error_count
      < max_errors ∧
    (∀ r ∈ stream_run StreamSession.init pre, r.st.error_count < max_errors) ∧
    (∀ (s : StreamSession) (fb : Option camera_fb_t) (send : Nat → esp_err_t),
      s.error_count < max_errors →
      (stream_iteration s fb send).st.error_count < max_errors) ∧
    (∀ (s : StreamSession) (fb : Option camera_fb_t) (send : Nat → esp_err_t),
      s.error_count = 4 → (stream_iteration s fb send).path.write_failed = true →
      (stream_iteration s fb send).running = true →
      (stream_iteration s fb send).st.error_count = 0) := by
  obtain ⟨h1, h2⟩ := stream_run_error_count_lt pre StreamSession.init (by decide)
  refine ⟨rfl, rfl, h2, h1, fun s fb send h => stream_iteration_error_count_lt s fb send h,
    ?_⟩
  intro s fb send h4 hf hr
  have h := (stream_iteration_failed s fb send hf hr).1
  rw [h, h4]
  decide

/-- The increment of a size_t counter at its largest value wraps to 0. -/
theorem size_inc_wraps : size_inc SIZE_MAX = 0 := by
  decide


end Esp32Camera
